import Mathlib

/-!
Verification of the OCR invoice-processing pipeline (FlameGreat-1/OCR-Engine).

Shallow embedding of the Python sources:
  * `app/models.py` — pydantic models (`Address`, `Vendor`, `InvoiceItem`, `Invoice`),
    whose constructors validate their fields and raise on failure; modelled here as
    `mk…` functions returning `Except String …`.  Exception payloads are abbreviated
    to the names of the failing fields.
  * `app/utils/data_extractor.py` — heuristic extraction (`_extract_date`,
    `_extract_invoice_number`, `_extract_vendor`, `_extract_address`, `_extract_totals`,
    `_extract_items`, `_parse_decimal`) and the two-tier `extract_invoice_data`.
    The regular expressions of the source are embedded by an executable token
    matcher (`matchSegs`) with Python's leftmost / greedy-with-backtracking search.
    The external libraries `dateparser` and `price_parser` are collaborators outside
    the repository; they appear as function parameters (`dpo`/`dp`/`fb`).
  * `app/utils/ocr_engine.py` — batching and progress (`process_documents`,
    `update_processing_status`), MIME inference (`_get_mime_type`) and the
    tenacity retry policy of `_process_document` / `_get_docai_results`.
  * `app/main.py` — the direct-processing status writes and `cancel_task`.

Python `Decimal` is modelled exactly as a sign / coefficient / exponent triple
(`PyDecimal`) with CPython's `__str__` algorithm; `date` as a `(year, month, day)`
triple.  Machine floats never carry a claim here: all progress percentages are
modelled as the exact rational / integer values of the corresponding Python
expressions.
-/

namespace OCRSpec

deriving instance DecidableEq for Except

/-! ### Python string helpers (ASCII fragment) -/

/-- Characters treated as whitespace by Python `str.strip()` / `str.split()`. -/
def isPySpace (c : Char) : Bool :=
  c = ' ' || c = '\t' || c = '\n' || c = '\r' || c = Char.ofNat 11 || c = Char.ofNat 12

/-- Strip characters satisfying `p` from both ends (Python `str.strip(chars)`). -/
def pyStripP (p : Char → Bool) (l : List Char) : List Char :=
  ((l.dropWhile p).reverse.dropWhile p).reverse

/-- Python `str.strip()`. -/
def pyStripWs (l : List Char) : List Char := pyStripP isPySpace l

/-- The characters `'.,;:()[]{}'` stripped from words in `_extract_date`. -/
def isDatePunct (c : Char) : Bool :=
  c = '.' || c = ',' || c = ';' || c = ':' || c = '(' || c = ')' ||
  c = '[' || c = ']' || c = Char.ofNat 123 || c = Char.ofNat 125

/-- Word stripping in `_extract_date`: `word.strip('.,;:()[]\x7b\x7d')`. -/
def stripPunct (l : List Char) : List Char := pyStripP isDatePunct l

/-- Worker for `pySplitWs`; `cur` is the current word, reversed. -/
def splitWsGo (cur : List Char) : List Char → List (List Char)
  | [] => if cur.isEmpty then [] else [cur.reverse]
  | c :: t =>
    if isPySpace c then
      if cur.isEmpty then splitWsGo [] t else cur.reverse :: splitWsGo [] t
    else splitWsGo (c :: cur) t

/-- Python `str.split()` (split on whitespace runs, no empty pieces). -/
def pySplitWs (l : List Char) : List (List Char) := splitWsGo [] l

/-- Python `str.split(sep)` for a one-character separator (keeps empty pieces). -/
def pySplitOn (sep : Char) : List Char → List (List Char)
  | [] => [[]]
  | c :: t =>
    if c = sep then [] :: pySplitOn sep t
    else
      match pySplitOn sep t with
      | h :: r => (c :: h) :: r
      | [] => [[c]]

/-- `suffix.isSuffixOf l`, as Python `str.endswith`. -/
def listEndsWith (l suf : List Char) : Bool := suf.isSuffixOf l

/-- Numeric value of a digit string (most significant first). -/
def natOfDigits (l : List Char) : Nat := l.foldl (fun a c => 10 * a + (c.toNat - 48)) 0

/-- The decimal digit character for `k < 10`. -/
def digitChar (k : Nat) : Char :=
  (['0', '1', '2', '3', '4', '5', '6', '7', '8', '9']).getD k '0'

/-- Fuelled digit expansion of a natural number, most significant first. -/
def digitsGo : Nat → Nat → List Char
  | 0, _ => []
  | fuel + 1, n => if n = 0 then [] else digitsGo fuel (n / 10) ++ [digitChar (n % 10)]

/-- Decimal digit string of `n`, as Python renders an `int` coefficient. -/
def digitsOfNat (n : Nat) : List Char := if n = 0 then ['0'] else digitsGo (n + 1) n

/-- Python `int(str)`: optional sign, nonempty digits, surrounding whitespace allowed. -/
def pyInt (l : List Char) : Option Int :=
  let s := pyStripWs l
  match s with
  | '-' :: t => if !t.isEmpty && t.all Char.isDigit then some (-(natOfDigits t : Int)) else none
  | '+' :: t => if !t.isEmpty && t.all Char.isDigit then some (natOfDigits t : Int) else none
  | t => if !t.isEmpty && t.all Char.isDigit then some (natOfDigits t : Int) else none

/-! ### Python `decimal.Decimal` -/

/-- A Python `Decimal`: sign, coefficient and exponent.  The coefficient digit
string is `digitsOfNat coeff` (CPython normalises leading zeros away on parse). -/
structure PyDecimal where
  sign : Bool
  coeff : Nat
  exp : Int
deriving DecidableEq, Repr

/-- An exact decimal fixed-point number, `mantissa / 10 ^ places`.  Python
`Decimal` arithmetic on parsed amounts (addition, subtraction, multiplication
and comparison, as used by the validators) is exact decimal arithmetic, which
this type implements with executable integer operations. -/
structure DecFix where
  mantissa : Int
  places : Nat
deriving DecidableEq, Repr

/-- Rational value of a `DecFix`. -/
def decVal (x : DecFix) : ℚ := (x.mantissa : ℚ) / (10 : ℚ) ^ x.places

def decOfInt (n : Int) : DecFix := ⟨n, 0⟩

/-- `Decimal('0.01')`, the validators' tolerance. -/
def decCent : DecFix := ⟨1, 2⟩

def decNeg (a : DecFix) : DecFix := ⟨-a.mantissa, a.places⟩

def decAbs (a : DecFix) : DecFix := ⟨|a.mantissa|, a.places⟩

def decAdd (a b : DecFix) : DecFix :=
  ⟨a.mantissa * 10 ^ b.places + b.mantissa * 10 ^ a.places, a.places + b.places⟩

def decSub (a b : DecFix) : DecFix := decAdd a (decNeg b)

def decMul (a b : DecFix) : DecFix := ⟨a.mantissa * b.mantissa, a.places + b.places⟩

/-- Exact decimal comparison `a ≤ b`. -/
def decLe (a b : DecFix) : Bool :=
  a.mantissa * 10 ^ b.places ≤ b.mantissa * 10 ^ a.places

/-- Exact decimal comparison `a < b`. -/
def decLt (a b : DecFix) : Bool :=
  a.mantissa * 10 ^ b.places < b.mantissa * 10 ^ a.places

/-- Exact decimal value equality. -/
def decEqv (a b : DecFix) : Bool :=
  a.mantissa * 10 ^ b.places = b.mantissa * 10 ^ a.places

/-- The `DecFix` value of a `PyDecimal`. -/
def pyDecFix (d : PyDecimal) : DecFix :=
  if 0 ≤ d.exp then ⟨(if d.sign then -1 else 1) * d.coeff * 10 ^ d.exp.toNat, 0⟩
  else ⟨(if d.sign then -1 else 1) * d.coeff, (-d.exp).toNat⟩

/-- Exact rational value of a `PyDecimal`. -/
def pyDecVal (d : PyDecimal) : ℚ := decVal (pyDecFix d)

theorem decLe_iff (a b : DecFix) : decLe a b = true ↔ decVal a ≤ decVal b := by
  unfold decLe decVal
  rw [decide_eq_true_eq, div_le_div_iff₀ (by positivity) (by positivity)]
  norm_cast

theorem decLt_iff (a b : DecFix) : decLt a b = true ↔ decVal a < decVal b := by
  unfold decLt decVal
  rw [decide_eq_true_eq, div_lt_div_iff₀ (by positivity) (by positivity)]
  norm_cast

theorem decEqv_iff (a b : DecFix) : decEqv a b = true ↔ decVal a = decVal b := by
  unfold decEqv decVal
  rw [decide_eq_true_eq, div_eq_div_iff (by positivity) (by positivity)]
  norm_cast

theorem decVal_decAdd (a b : DecFix) : decVal (decAdd a b) = decVal a + decVal b := by
  unfold decVal decAdd
  rw [div_add_div _ _ (pow_ne_zero _ (by norm_num)) (pow_ne_zero _ (by norm_num)), pow_add]
  push_cast
  ring

theorem decVal_decNeg (a : DecFix) : decVal (decNeg a) = -decVal a := by
  unfold decVal decNeg
  push_cast
  ring

theorem decVal_decSub (a b : DecFix) : decVal (decSub a b) = decVal a - decVal b := by
  unfold decSub
  rw [decVal_decAdd, decVal_decNeg]
  ring

theorem decVal_decMul (a b : DecFix) : decVal (decMul a b) = decVal a * decVal b := by
  unfold decVal decMul
  rw [div_mul_div_comm, pow_add]
  push_cast
  ring

theorem decVal_decAbs (a : DecFix) : decVal (decAbs a) = |decVal a| := by
  unfold decVal decAbs
  rw [abs_div, abs_of_pos (a := (10 : ℚ) ^ a.places) (by positivity)]
  push_cast
  ring

theorem decVal_decOfInt (n : Int) : decVal (decOfInt n) = (n : ℚ) := by
  unfold decVal decOfInt
  norm_num

theorem decVal_decCent : decVal decCent = 1 / 100 := by
  unfold decVal decCent
  norm_num

/-- `Decimal(numeric-string)` on the alphabet `[0-9.-]` cleaned input:
digits with at most one point, at least one digit, optional leading minus. -/
def parseDecCore (sg : Bool) (r : List Char) : Option PyDecimal :=
  let ip := r.takeWhile Char.isDigit
  let rest := r.dropWhile Char.isDigit
  match rest with
  | [] => if ip.isEmpty then none else some ⟨sg, natOfDigits ip, 0⟩
  | '.' :: fp =>
    if fp.all Char.isDigit && !(ip.isEmpty && fp.isEmpty) then
      some ⟨sg, natOfDigits (ip ++ fp), -(fp.length : Int)⟩
    else none
  | _ => none

/-- `Decimal(s)` for the cleaned strings produced by `_parse_decimal`. -/
def parseDecLit : List Char → Option PyDecimal
  | [] => parseDecCore false []
  | c :: t => if c = '-' then parseDecCore true t else parseDecCore false (c :: t)

/-- `re.sub(r'[^\d.-]', '', s)` — keep only digits, `'.'` and `'-'`. -/
def cleanAmount (s : List Char) : List Char :=
  s.filter (fun c => c.isDigit || c = '.' || c = '-')

/-- `DataExtractor._parse_decimal` (data_extractor.py lines 388-401).
`fb` is the external `price_parser.Price.fromstring` collaborator, returning the
optional `price.amount`; the code keeps a fallback amount only when it is truthy
(a zero `Decimal` is falsy in Python). -/
def parseDecimal (fb : List Char → Option PyDecimal) (s : List Char) : Option PyDecimal :=
  if pyStripWs s = [] then none
  else
    match parseDecLit (cleanAmount s) with
    | some d => some d
    | none =>
      match fb s with
      | some a => if a.coeff = 0 then none else some a
      | none => none

/-- `leftdigits` in CPython `Decimal.__str__`: exponent plus number of
coefficient digits. -/
def pyDecLeft (d : PyDecimal) : Int := d.exp + ((digitsOfNat d.coeff).length : Int)

/-- The scientific-notation branch of `Decimal.__str__` (`dotplace = 1`). -/
def pyDecSci (d : PyDecimal) : List Char :=
  ((digitsOfNat d.coeff).take 1 ++
    (if 1 < (digitsOfNat d.coeff).length then '.' :: (digitsOfNat d.coeff).drop 1 else [])) ++
    'E' :: (if pyDecLeft d - 1 < 0 then '-' :: digitsOfNat (pyDecLeft d - 1).natAbs
            else '+' :: digitsOfNat (pyDecLeft d - 1).toNat)

/-- The unsigned part of `Decimal.__str__`. -/
def pyDecBody (d : PyDecimal) : List Char :=
  if d.exp ≤ 0 ∧ (-6 : Int) < pyDecLeft d then
    if d.exp = 0 then digitsOfNat d.coeff
    else if 0 < pyDecLeft d then
      (digitsOfNat d.coeff).take (pyDecLeft d).toNat ++ '.' :: (digitsOfNat d.coeff).drop (pyDecLeft d).toNat
    else '0' :: '.' :: (List.replicate (-(pyDecLeft d)).toNat '0' ++ digitsOfNat d.coeff)
  else pyDecSci d

/-- CPython `Decimal.__str__` (to-scientific-string, `eng=False`). -/
def pyDecStr (d : PyDecimal) : List Char :=
  (if d.sign then ['-'] else []) ++ pyDecBody d

/-! ### Python `datetime.date` -/

/-- A Python `datetime.date`. -/
structure PyDate where
  year : Nat
  month : Nat
  day : Nat
deriving DecidableEq, Repr

/-- Gregorian leap year. -/
def isLeapYear (y : Nat) : Bool := y % 4 = 0 && (y % 100 ≠ 0 || y % 400 = 0)

/-- Days in a month, as validated by the `datetime.date` constructor. -/
def daysInMonth (y m : Nat) : Nat :=
  if m = 2 then (if isLeapYear y then 29 else 28)
  else if m = 4 || m = 6 || m = 9 || m = 11 then 30
  else 31

/-- Python `date` comparison `a <= b`. -/
def dateLe (a b : PyDate) : Bool :=
  a.year < b.year ||
    (a.year = b.year &&
      (a.month < b.month || (a.month = b.month && a.day ≤ b.day)))

/-- The bare-numeric `YYYYMMDD` branch of `_extract_date` (data_extractor.py
lines 119-129): an 8-digit word split as year/month/day, the stated range checks,
and the `date(...)` constructor's calendar validation (`ValueError` is caught). -/
def numeric8 (w : List Char) : Option PyDate :=
  if w.length = 8 && w.all Char.isDigit then
    let y := natOfDigits (w.take 4)
    let m := natOfDigits ((w.drop 4).take 2)
    let d := natOfDigits (w.drop 6)
    if 1 ≤ m ∧ m ≤ 12 ∧ 1 ≤ d ∧ d ≤ 31 ∧ 1900 ≤ y ∧ y ≤ 2100 ∧ d ≤ daysInMonth y m then
      some ⟨y, m, d⟩
    else none
  else none

/-- `datetime.strptime(s, '%Y-%m-%d').date()` as used by `_extract_from_docai`:
four-digit year, one/two-digit month and day, full-string match, calendar check. -/
def pyStrptimeYMD (s : List Char) : Option PyDate :=
  match pySplitOn '-' s with
  | [ys, ms, ds] =>
    if ys.length = 4 && ys.all Char.isDigit &&
        (1 ≤ ms.length && ms.length ≤ 2) && ms.all Char.isDigit &&
        (1 ≤ ds.length && ds.length ≤ 2) && ds.all Char.isDigit then
      let y := natOfDigits ys
      let m := natOfDigits ms
      let d := natOfDigits ds
      if 1 ≤ y ∧ 1 ≤ m ∧ m ≤ 12 ∧ 1 ≤ d ∧ d ≤ daysInMonth y m then
        some ⟨y, m, d⟩
      else none
    else none
  | _ => none

/-! ### A small matcher for the source's regular expressions

Each pattern of the source is a sequence of *segments* (sub-sequences of tokens);
segment boundaries realise the capture groups.  Matching is greedy with
backtracking — Python `re` semantics for these patterns, whose quantifiers act on
character classes only. -/

/-- One regex token: a single class character, an optional one (`?`), or a
greedy bounded repetition (`{lo,hi}`, `hi = none` meaning unbounded). -/
inductive Tok where
  | one : (Char → Bool) → Tok
  | opt : (Char → Bool) → Tok
  | rep : (Char → Bool) → Nat → Option Nat → Tok

/-- Size bound used to compute an adequate fuel for `matchSegsFuel`. -/
def segsWeight : List (List Tok) → Nat
  | [] => 0
  | ts :: rest => ts.length + 1 + segsWeight rest

/-- Add one consumed character to the current segment's length. -/
def bumpHead : Option (List Nat) → Option (List Nat)
  | some (n :: m) => some ((n + 1) :: m)
  | some [] => some [1]
  | none => none

/-- Fuelled anchored matcher: does the segment list match a prefix of `s`?
On success, the list of lengths consumed by each segment. -/
def matchSegsFuel : Nat → List (List Tok) → List Char → Option (List Nat)
  | 0, _, _ => none
  | fuel + 1, segs, s =>
    match segs with
    | [] => some []
    | [] :: rest => (matchSegsFuel fuel rest s).map (fun ns => 0 :: ns)
    | (Tok.one p :: ts) :: rest =>
      match s with
      | [] => none
      | c :: s' => if p c then bumpHead (matchSegsFuel fuel (ts :: rest) s') else none
    | (Tok.opt p :: ts) :: rest =>
      match s with
      | c :: s' =>
        if p c then
          match bumpHead (matchSegsFuel fuel (ts :: rest) s') with
          | some r => some r
          | none => matchSegsFuel fuel (ts :: rest) s
        else matchSegsFuel fuel (ts :: rest) s
      | [] => matchSegsFuel fuel (ts :: rest) s
    | (Tok.rep p lo hi :: ts) :: rest =>
      if hi = some 0 then matchSegsFuel fuel (ts :: rest) s
      else
        match s with
        | c :: s' =>
          if p c then
            match bumpHead (matchSegsFuel fuel ((Tok.rep p (lo - 1) (hi.map fun x => x - 1) :: ts) :: rest) s') with
            | some r => some r
            | none => if lo = 0 then matchSegsFuel fuel (ts :: rest) s else none
          else if lo = 0 then matchSegsFuel fuel (ts :: rest) s else none
        | [] => if lo = 0 then matchSegsFuel fuel (ts :: rest) s else none

/-- Anchored match with adequate fuel (every step consumes a character, drops a
token or drops a segment, so `length + weight` steps suffice). -/
def matchSegs (segs : List (List Tok)) (s : List Char) : Option (List Nat) :=
  matchSegsFuel (s.length + segsWeight segs + 1) segs s

/-- `re.search`: leftmost start position at which the pattern matches, with the
segment lengths there. -/
def reSearchPos (segs : List (List Tok)) : List Char → Nat → Option (Nat × List Nat)
  | s, i =>
    match matchSegs segs s with
    | some ns => some (i, ns)
    | none =>
      match s with
      | [] => none
      | _ :: t => reSearchPos segs t (i + 1)

/-- Slice `s` into the matched segments, starting at absolute position `start`. -/
def segSlices (s : List Char) : Nat → List Nat → List (List Char)
  | _, [] => []
  | start, n :: ns => ((s.drop start).take n) :: segSlices s (start + n) ns

/-- `re.search` returning the per-segment captured texts of the leftmost match. -/
def reSearchGroups (segs : List (List Tok)) (s : List Char) : Option (List (List Char)) :=
  (reSearchPos segs s 0).map (fun r => segSlices s r.1 r.2)

/-- `re.finditer` (fuelled): per-segment captures of every non-overlapping match. -/
def reFindAllAux (segs : List (List Tok)) : Nat → List Char → List (List (List Char))
  | 0, _ => []
  | fuel + 1, s =>
    match reSearchPos segs s 0 with
    | none => []
    | some (i, ns) =>
      let tot := ns.foldl (· + ·) 0
      segSlices s i ns :: reFindAllAux segs fuel (s.drop (i + max tot 1))

/-- All matches of a pattern, Python `re.finditer` order. -/
def reFindAll (segs : List (List Tok)) (s : List Char) : List (List (List Char)) :=
  reFindAllAux segs (s.length + 1) s

/-- Case-insensitive literal, as produced by `(?i)` on an ASCII word. -/
def litCI (w : String) : List Tok :=
  w.toList.map (fun c => Tok.one (fun x => x.toLower = c.toLower))

/-- First `some` in a list of options (Python's first-match-wins loops). -/
def firstSomeList : List (Option α) → Option α
  | [] => none
  | o :: t =>
    match o with
    | some a => some a
    | none => firstSomeList t

/-! ### The pydantic models of `app/models.py`

Constructors validate in field order and raise `ValidationError` on any failure;
here they return `Except String …`, the error text abbreviated to the names of
the failing fields.  Validators whose `values` prerequisites failed are skipped,
exactly as pydantic v1 does. -/

structure Address where
  street : String
  city : String
  state : Option String
  country : String
  postal_code : String
deriving DecidableEq, Repr

structure Vendor where
  name : String
  address : Address
deriving DecidableEq, Repr

structure InvoiceItem where
  description : String
  quantity : Int
  unit_price : DecFix
  total : DecFix
deriving DecidableEq, Repr

structure Invoice where
  filename : String
  invoice_number : String
  vendor : Vendor
  invoice_date : PyDate
  grand_total : DecFix
  taxes : DecFix
  final_total : DecFix
  items : List InvoiceItem
  pages : Int
deriving DecidableEq, Repr

/-- `Address(...)`: `street`, `city`, `country`, `postal_code` are
`constr(min_length=1)`; `state` is `Optional[str]`. -/
def mkAddress (street city : String) (state : Option String) (country postal_code : String) :
    Except String Address :=
  let errs :=
    (if street = "" then ["street"] else []) ++
    (if city = "" then ["city"] else []) ++
    (if country = "" then ["country"] else []) ++
    (if postal_code = "" then ["postal_code"] else [])
  if errs = [] then .ok ⟨street, city, state, country, postal_code⟩
  else .error ("Address:" ++ String.intercalate "," errs)

/-- `Vendor(...)`: `name` is `constr(min_length=1)`. -/
def mkVendor (name : String) (address : Address) : Except String Vendor :=
  if name = "" then .error "Vendor:name" else .ok ⟨name, address⟩

/-- `InvoiceItem` field errors: `description` nonempty, `quantity` `gt=0`,
`unit_price`/`total` `ge=0`, and the `validate_item_total` validator
(models.py lines 24-30: `raise` when `|total - quantity*unit_price| > 0.01`),
which runs only when its prerequisite fields validated. -/
def itemErrs (description : String) (q : Int) (u t : DecFix) : List String :=
  (if description = "" then ["description"] else []) ++
  (if q ≤ 0 then ["quantity"] else []) ++
  (if decLt u (decOfInt 0) then ["unit_price"] else []) ++
  (if decLt t (decOfInt 0) then ["total"] else []) ++
  (if 0 < q ∧ decLe (decOfInt 0) u = true ∧ decLe (decOfInt 0) t = true ∧
      decLt decCent (decAbs (decSub t (decMul (decOfInt q) u))) = true
   then ["item_total"] else [])

/-- `InvoiceItem(...)`: all four fields are required (a `None` is a missing
value), then the checks of `itemErrs`. -/
def mkInvoiceItem (description : String) (quantity : Option Int) (unit_price total : Option DecFix) :
    Except String InvoiceItem :=
  match quantity, unit_price, total with
  | some q, some u, some t =>
    let errs := itemErrs description q u t
    if errs = [] then .ok ⟨description, q, u, t⟩
    else .error ("InvoiceItem:" ++ String.intercalate "," errs)
  | _, _, _ => .error "InvoiceItem:missing_required"

/-- `^[A-Za-z0-9-]{5,}$`, the `invoice_number` field regex. -/
def invoiceNumberOk (s : String) : Bool :=
  5 ≤ s.length && s.toList.all (fun c => c.isAlphanum || c = '-')

/-- `Invoice` field errors: the field constraints of models.py lines 32-41 plus
the validators `validate_final_total` (lines 43-49, `raise` when
`|final_total - (grand_total + taxes)| > 0.01`) and `validate_invoice_date`
(lines 51-55, `raise` when the date is in the future). -/
def invoiceErrs (filename num : String) (d : PyDate) (g tx f : DecFix)
    (items : List InvoiceItem) (pages : Int) (today : PyDate) : List String :=
  (if filename = "" then ["filename"] else []) ++
  (if invoiceNumberOk num then [] else ["invoice_number"]) ++
  (if dateLe d today then [] else ["invoice_date"]) ++
  (if decLt g (decOfInt 0) then ["grand_total"] else []) ++
  (if decLt tx (decOfInt 0) then ["taxes"] else []) ++
  (if decLt f (decOfInt 0) then ["final_total"] else []) ++
  (if decLe (decOfInt 0) g = true ∧ decLe (decOfInt 0) tx = true ∧ decLe (decOfInt 0) f = true ∧
      decLt decCent (decAbs (decSub f (decAdd g tx))) = true
   then ["final_total_mismatch"] else []) ++
  (if items = [] then ["items"] else []) ++
  (if pages < 1 then ["pages"] else [])

/-- `Invoice(...)`: `invoice_number`, `invoice_date`, `grand_total`, `taxes` and
`final_total` are required (`None` is a missing value), then `invoiceErrs`. -/
def mkInvoice (filename : String) (number : Option String) (vendor : Vendor)
    (idate : Option PyDate) (gt tax ft : Option DecFix) (items : List InvoiceItem)
    (pages : Int) (today : PyDate) : Except String Invoice :=
  match number, idate, gt, tax, ft with
  | some num, some d, some g, some tx, some f =>
    let errs := invoiceErrs filename num d g tx f items pages today
    if errs = [] then .ok ⟨filename, num, vendor, d, g, tx, f, items, pages⟩
    else .error ("Invoice:" ++ String.intercalate "," errs)
  | _, _, _, _, _ => .error "Invoice:missing_required"

/-! ### `app/utils/data_extractor.py` — heuristic extraction -/

def isDigitB (c : Char) : Bool := c.isDigit
def isAsciiAlpha (c : Char) : Bool := c.isAlpha
def isColonWs (c : Char) : Bool := c = ':' || isPySpace c
def isDigitComma (c : Char) : Bool := c.isDigit || c = ','
def isDateSepChar (c : Char) : Bool := c = '-' || c = '/' || c = '.'
def isAlnumDash (c : Char) : Bool := c.isAlphanum || c = '-'
def isAlphaOrWs (c : Char) : Bool := c.isAlpha || isPySpace c
def isUpperAZ (c : Char) : Bool := 'A' ≤ c && c ≤ 'Z'

/-- `[:\s]*` -/
def colonWsRep : Tok := Tok.rep isColonWs 0 none
/-- `\s*` -/
def wsRep : Tok := Tok.rep isPySpace 0 none

/-- Capture the numeric date shape: one or two digits, a separator from the
class dash/slash/dot, again digits and a separator, then two to four digits. -/
def numericDateCap : List Tok :=
  [Tok.rep isDigitB 1 (some 2), Tok.one isDateSepChar,
   Tok.rep isDigitB 1 (some 2), Tok.one isDateSepChar,
   Tok.rep isDigitB 2 (some 4)]

/-- Capture `([A-Za-z]{3,9}\.?\s+\d{1,2},?\s+\d{4})`. -/
def monthNameDateCap : List Tok :=
  [Tok.rep isAsciiAlpha 3 (some 9), Tok.opt (· = '.'), Tok.rep isPySpace 1 none,
   Tok.rep isDigitB 1 (some 2), Tok.opt (· = ','), Tok.rep isPySpace 1 none,
   Tok.rep isDigitB 4 (some 4)]

/-- The six `labeled_patterns` of `_extract_date` (data_extractor.py lines 39-46). -/
def labeledDatePats : List (List (List Tok)) :=
  [[litCI "date" ++ [colonWsRep], numericDateCap],
   [litCI "invoice" ++ [wsRep] ++ litCI "date" ++ [colonWsRep], numericDateCap],
   [litCI "date" ++ [wsRep] ++ litCI "of" ++ [wsRep] ++ litCI "invoice" ++ [colonWsRep], numericDateCap],
   [litCI "issue" ++ [wsRep] ++ litCI "date" ++ [colonWsRep], numericDateCap],
   [litCI "date" ++ [colonWsRep], monthNameDateCap],
   [litCI "invoice" ++ [wsRep] ++ litCI "date" ++ [colonWsRep], monthNameDateCap]]

/-- The six bare `date_patterns` of `_extract_date` (lines 48-55). -/
def plainDatePats : List (List (List Tok)) :=
  [[[], numericDateCap],
   [[], monthNameDateCap],
   [[], [Tok.rep isDigitB 1 (some 2), Tok.rep isPySpace 1 none,
         Tok.rep isAsciiAlpha 3 (some 9), Tok.opt (· = '.'), Tok.rep isPySpace 1 none,
         Tok.rep isDigitB 4 (some 4)]],
   [[], [Tok.rep isDigitB 4 (some 4), Tok.one isDateSepChar,
         Tok.rep isDigitB 1 (some 2), Tok.one isDateSepChar,
         Tok.rep isDigitB 1 (some 2)]],
   [[], [Tok.rep isDigitB 1 (some 2), Tok.one isDateSepChar,
         Tok.rep isAsciiAlpha 3 (some 3), Tok.one isDateSepChar,
         Tok.rep isDigitB 4 (some 4)]],
   [[], [Tok.rep isAsciiAlpha 3 (some 3), Tok.one isDateSepChar,
         Tok.rep isDigitB 1 (some 2), Tok.one isDateSepChar,
         Tok.rep isDigitB 4 (some 4)]]]

/-- The `DATE_ORDER` settings tried for every candidate. -/
inductive DateOrder where
  | DMY
  | MDY
  | YMD
deriving DecidableEq, Repr

/-- The inner loop `for order in ['DMY','MDY','YMD']` over the `dateparser`
collaborator `dpo`. -/
def tryDateOrders (dpo : DateOrder → List Char → Option PyDate) (s : List Char) :
    Option PyDate :=
  match dpo .DMY s with
  | some d => some d
  | none =>
    match dpo .MDY s with
    | some d => some d
    | none => dpo .YMD s

/-- One pattern-list stage of `_extract_date`: for each pattern in order, for each
`finditer` match in order, try to parse the stripped group(1). -/
def datePatternScan (parse : List Char → Option PyDate) (pats : List (List (List Tok)))
    (text : List Char) : Option PyDate :=
  firstSomeList (pats.map (fun segs =>
    firstSomeList ((reFindAll segs text).map (fun groups =>
      parse (pyStripWs (groups.getD 1 []))))))

def hasLeadingAlpha3 (w : List Char) : Bool :=
  (w.take 3).length = 3 && (w.take 3).all Char.isAlpha

def hasLeadingDigit : List Char → Bool
  | c :: _ => c.isDigit
  | [] => false

def hasLeading4Digits (w : List Char) : Bool :=
  (w.take 4).length = 4 && (w.take 4).all Char.isDigit

/-- The word-by-word scanning stage of `_extract_date` (lines 103-151): per word,
(a) a digit-bearing word with a separator or of length 8 goes to `dateparser`
(`dp`) and then to the bare `YYYYMMDD` check, (b) a word with three leading
letters followed by a digit word and a 4-digit word is recombined and parsed. -/
def dateWordScan (dp : List Char → Option PyDate) : List (List Char) → Option PyDate
  | [] => none
  | w :: rest =>
    let wd := stripPunct w
    let r1 :=
      if wd.any Char.isDigit && (wd.any isDateSepChar || wd.length = 8) then
        match dp wd with
        | some d => some d
        | none => numeric8 wd
      else none
    match r1 with
    | some d => some d
    | none =>
      let r2 :=
        if hasLeadingAlpha3 wd then
          match rest with
          | nw :: rest2 =>
            let nwd := stripPunct nw
            if hasLeadingDigit nwd then
              match rest2 with
              | yw :: _ =>
                let ywd := stripPunct yw
                if hasLeading4Digits ywd then dp (wd ++ ' ' :: (nwd ++ ' ' :: ywd))
                else none
              | [] => none
            else none
          | [] => none
        else none
      match r2 with
      | some d => some d
      | none => dateWordScan dp rest

/-- `DataExtractor._extract_date` (lines 38-154): labeled patterns, then bare
patterns, then the word scan; `none` when everything fails. -/
def extractDate (dpo : DateOrder → List Char → Option PyDate)
    (dp : List Char → Option PyDate) (text : List Char) : Option PyDate :=
  match datePatternScan (tryDateOrders dpo) labeledDatePats text with
  | some d => some d
  | none =>
    match datePatternScan (tryDateOrders dpo) plainDatePats text with
    | some d => some d
    | none => dateWordScan dp (pySplitWs text)

/-- The three `_extract_invoice_number` patterns (lines 292-302);
`number?` is the literal `numbe` with an optional `r`. -/
def invoiceNumberPats : List (List (List Tok)) :=
  [[litCI "invoice" ++ [wsRep] ++ litCI "numbe" ++ [Tok.opt (fun c => c.toLower = 'r'), colonWsRep],
    [Tok.rep isAlnumDash 5 none]],
   [litCI "invoice" ++ [wsRep, Tok.one (· = '#'), colonWsRep],
    [Tok.rep isAlnumDash 5 none]],
   [litCI "inv" ++ [colonWsRep],
    [Tok.rep isAlnumDash 5 none]]]

/-- `DataExtractor._extract_invoice_number`: first pattern that matches wins,
result is group(1). -/
def extractInvoiceNumber (text : List Char) : Option (List Char) :=
  firstSomeList (invoiceNumberPats.map (fun segs =>
    (reSearchGroups segs text).map (fun g => g.getD 1 [])))

def isWordChar (c : Char) : Bool := c.isAlphanum || c = '_'

/-- `\b` at the end of a candidate: end of string or a non-word character. -/
def endBoundary : List Char → Bool
  | [] => true
  | c :: _ => !isWordChar c

/-- The postal-code pattern `\b\d{5}(?:-\d{4})?\b` tried at the current
position (greedy optional group with backtracking). -/
def postalHere (s : List Char) : Option (List Char) :=
  let d5 := s.take 5
  if d5.length = 5 && d5.all Char.isDigit then
    let rest := s.drop 5
    match rest with
    | '-' :: r2 =>
      let d4 := r2.take 4
      if d4.length = 4 && d4.all Char.isDigit && endBoundary (r2.drop 4) then
        some (d5 ++ '-' :: d4)
      else if endBoundary rest then some d5 else none
    | _ => if endBoundary rest then some d5 else none
  else none

/-- `re.search(r'\b\d{5}(?:-\d{4})?\b', line)`, scanning left to right with the
preceding character tracked for the leading `\b`. -/
def postalScan (prev : Option Char) : List Char → Option (List Char)
  | [] => none
  | c :: t =>
    let boundaryOk :=
      match prev with
      | none => true
      | some p => !isWordChar p
    match (if boundaryOk then postalHere (c :: t) else none) with
    | some r => some r
    | none => postalScan (some c) t

/-- `([A-Za-z\s]+),\s*([A-Z]{2})` — segments 1 and 3 are the two groups. -/
def cityStatePat : List (List Tok) :=
  [[], [Tok.rep isAlphaOrWs 1 none],
   [Tok.one (· = ','), wsRep],
   [Tok.rep isUpperAZ 2 (some 2)]]

/-- `DataExtractor._extract_address` (lines 317-343).  `country` is never set by
the source, so the strict `Address` model always rejects the result. -/
def extractAddress (text : List Char) : Except String Address :=
  let lines := pySplitOn '\n' text
  let street := lines.getD 0 []
  let csp :=
    if 1 < lines.length then
      let addressLine := lines.getD 1 []
      let postal :=
        match postalScan none addressLine with
        | some g => g
        | none => []
      match reSearchGroups cityStatePat addressLine with
      | some g => (pyStripWs (g.getD 1 []), g.getD 3 [], postal)
      | none => (([] : List Char), ([] : List Char), postal)
    else (([] : List Char), ([] : List Char), ([] : List Char))
  mkAddress (String.mk street) (String.mk csp.1) (some (String.mk csp.2.1)) "" (String.mk csp.2.2)

/-- `DataExtractor._extract_vendor` (lines 304-315): first line is the name, the
next three lines the address text.  The `if not lines` branch of the source is
unreachable (`split` always yields at least one piece) and would call `Address()`
with every required field missing. -/
def extractVendor (text : List Char) : Except String Vendor :=
  let lines := pySplitOn '\n' text
  if lines.isEmpty then do
    let a ← mkAddress "" "" none "" ""
    mkVendor "" a
  else
    let name := lines.getD 0 []
    let addressText :=
      if 1 < lines.length then List.intercalate ['\n'] ((lines.drop 1).take 3) else []
    do
      let a ← extractAddress addressText
      mkVendor (String.mk name) a

/-- Capture `([\d,]+\.\d{2})`. -/
def moneyCap : List Tok :=
  [Tok.rep isDigitComma 1 none, Tok.one (· = '.'), Tok.rep isDigitB 2 (some 2)]

/-- `(?i)subtotal[:\s]*\$?([\d,]+\.\d{2})` -/
def subtotalPat : List (List Tok) :=
  [litCI "subtotal" ++ [colonWsRep, Tok.opt (· = '$')], moneyCap]

/-- `(?i)tax[:\s]*\$?([\d,]+\.\d{2})` -/
def taxPat : List (List Tok) :=
  [litCI "tax" ++ [colonWsRep, Tok.opt (· = '$')], moneyCap]

/-- `(?i)total[:\s]*\$?([\d,]+\.\d{2})` -/
def totalPat : List (List Tok) :=
  [litCI "total" ++ [colonWsRep, Tok.opt (· = '$')], moneyCap]

/-- `DataExtractor._extract_totals` (lines 345-362): independent searches for the
subtotal, tax and total patterns; unmatched amounts stay `none`. -/
def extractTotals (fb : List Char → Option PyDecimal) (text : List Char) :
    Option PyDecimal × Option PyDecimal × Option PyDecimal :=
  ((reSearchGroups subtotalPat text).bind (fun g => parseDecimal fb (g.getD 1 [])),
   (reSearchGroups taxPat text).bind (fun g => parseDecimal fb (g.getD 1 [])),
   (reSearchGroups totalPat text).bind (fun g => parseDecimal fb (g.getD 1 [])))

/-- One table row parsed as an item (`_extract_items` lines 370-384 and the same
shape in `_extract_from_docai` lines 240-251): rows shorter than 4 cells yield
nothing, `int(row[1])` failures and `ValidationError`s are caught and skip the
row, blank cells become missing values. -/
def parseItemRow (fb : List Char → Option PyDecimal) (row : List (List Char)) :
    Option InvoiceItem :=
  if 4 ≤ row.length then
    let r1 := row.getD 1 []
    match (if pyStripWs r1 = [] then some none else (pyInt r1).map some) with
    | none => none
    | some qOpt =>
      let r2 := row.getD 2 []
      let r3 := row.getD 3 []
      let upOpt := if pyStripWs r2 = [] then none else (parseDecimal fb r2).map pyDecFix
      let totOpt := if pyStripWs r3 = [] then none else (parseDecimal fb r3).map pyDecFix
      match mkInvoiceItem (String.mk (row.getD 0 [])) qOpt upOpt totOpt with
      | .ok item => some item
      | .error _ => none
  else none

/-- `DataExtractor._extract_items` (lines 364-386): each table's rows after the
header row. -/
def extractItems (fb : List Char → Option PyDecimal)
    (tables : List (List (List (List Char)))) : List InvoiceItem :=
  (tables.map (fun table =>
    if 1 < table.length then (table.drop 1).filterMap (parseItemRow fb) else [])).flatten

/-- A normalized OCR result as consumed by `extract_invoice_data`. -/
structure OcrResult where
  filename : String
  text : List Char
  words : List (List Char)
  tables : List (List (List (List Char)))
  num_pages : Int
deriving Repr

/-- `DataExtractor._extract_from_gcv` (lines 265-290). -/
def extractFromGcv (dpo : DateOrder → List Char → Option PyDate)
    (dp : List Char → Option PyDate) (fb : List Char → Option PyDecimal)
    (ocr : OcrResult) (filename : String) (today : PyDate) : Except String Invoice := do
  let text := if ocr.text ≠ [] then ocr.text else List.intercalate [' '] ocr.words
  let number := extractInvoiceNumber text
  let vendor ← extractVendor text
  let idate := extractDate dpo dp text
  let totals := extractTotals fb text
  let items := extractItems fb ocr.tables
  mkInvoice filename (number.map String.mk) vendor idate
    (totals.1.map pyDecFix) (totals.2.1.map pyDecFix) (totals.2.2.map pyDecFix)
    items ocr.num_pages today

/-- The structured-entity (Document AI) result: entity-type → mention-text
mapping and row grids. -/
structure DocaiResult where
  entities : List (String × String)
  tables : List (List (List (List Char)))
deriving Repr

def entGet (d : DocaiResult) (k : String) : Option String := d.entities.lookup k

def entGetD (d : DocaiResult) (k : String) : String := (entGet d k).getD ""

/-- `_extract_from_docai` item rows: every row of every table (no header skip). -/
def docaiItems (fb : List Char → Option PyDecimal)
    (tables : List (List (List (List Char)))) : List InvoiceItem :=
  (tables.map (fun table => table.filterMap (parseItemRow fb))).flatten

/-- `DataExtractor._extract_from_docai` (lines 194-263): entity lookups with `''`
defaults, `%Y-%m-%d` date parse (failures leave the date `None`), `_parse_decimal`
amounts (`total_amount` feeds both `grand_total` and `final_total`), then the
strict `Invoice` construction with `pages=1`. -/
def extractFromDocai (fb : List Char → Option PyDecimal) (d : DocaiResult)
    (filename : String) (today : PyDate) : Except String Invoice := do
  let addr ← mkAddress (entGetD d "supplier_address") (entGetD d "supplier_city")
    (some (entGetD d "supplier_state")) (entGetD d "supplier_country") (entGetD d "supplier_zip")
  let vendor ← mkVendor (entGetD d "supplier_name") addr
  let idate := if (entGet d "invoice_date").isSome then pyStrptimeYMD (entGetD d "invoice_date").toList else none
  let gt := if (entGet d "total_amount").isSome then (parseDecimal fb (entGetD d "total_amount").toList).map pyDecFix else none
  let tax := if (entGet d "total_tax_amount").isSome then (parseDecimal fb (entGetD d "total_tax_amount").toList).map pyDecFix else none
  let ft := if (entGet d "total_amount").isSome then (parseDecimal fb (entGetD d "total_amount").toList).map pyDecFix else none
  let items := docaiItems fb d.tables
  mkInvoice filename (some (entGetD d "invoice_id")) vendor idate gt tax ft items 1 today

/-- A `datetime.date` object is always truthy in Python. -/
def pyDateTruthy (_ : PyDate) : Bool := true

/-- `DataExtractor._is_invoice_valid` (lines 188-192):
`invoice_number or vendor.name or invoice_date or grand_total is not None`.
On the strict model a constructed `Invoice` always has a date object and a
`grand_total`, so the last two disjuncts are always true. -/
def isInvoiceValid (inv : Invoice) : Bool :=
  inv.invoice_number ≠ "" || inv.vendor.name ≠ "" || pyDateTruthy inv.invoice_date || true

/-- `DataExtractor.extract_invoice_data` (lines 177-186): structured-entity tier
first when a Document AI result with entities is present, heuristic tier
otherwise.  A `ValidationError` raised inside `_extract_from_docai` is not
caught and propagates. -/
def extractInvoiceData (dpo : DateOrder → List Char → Option PyDate)
    (dp : List Char → Option PyDate) (fb : List Char → Option PyDecimal)
    (ocr : OcrResult) (docai : Option DocaiResult) (today : PyDate) :
    Except String Invoice :=
  match docai with
  | some d =>
    match extractFromDocai fb d ocr.filename today with
    | .ok inv =>
      if isInvoiceValid inv then .ok inv
      else extractFromGcv dpo dp fb ocr ocr.filename today
    | .error e => .error e
  | none => extractFromGcv dpo dp fb ocr ocr.filename today

/-- The validity check of the claim, read off the candidate's raw entity data:
at least one of invoice number nonempty, vendor name nonempty, date present,
grand total present. -/
def docaiCandidateValid (fb : List Char → Option PyDecimal) (d : DocaiResult) : Bool :=
  entGetD d "invoice_id" ≠ "" || entGetD d "supplier_name" ≠ "" ||
  (if (entGet d "invoice_date").isSome then (pyStrptimeYMD (entGetD d "invoice_date").toList).isSome else false) ||
  (if (entGet d "total_amount").isSome then (parseDecimal fb (entGetD d "total_amount").toList).isSome else false)

/-! ### `app/utils/ocr_engine.py` — batching, progress, MIME, retry -/

/-- Fuelled chunking; fuel `l.length` suffices for `bs ≥ 1`. -/
def chunksOfGo (bs : Nat) : Nat → List α → List (List α)
  | 0, _ => []
  | _, [] => []
  | fuel + 1, c :: t => (c :: t).take bs :: chunksOfGo bs fuel ((c :: t).drop bs)

/-- `[documents[i:i+bs] for i in range(0, len(documents), bs)]`. -/
def chunksOf (bs : Nat) (l : List α) : List (List α) := chunksOfGo bs l.length l

/-- The `ProcessingStatus` record as produced by `update_processing_status`
(progress as the exact value of `processed / total * 100`). -/
structure EngineStatus where
  status : String
  progress : ℚ
  message : String
deriving DecidableEq, Repr

/-- `OCREngine.update_processing_status` (ocr_engine.py lines 345-351). -/
def updateProcessingStatus (total processed : Nat) : EngineStatus :=
  { status := if processed < total then "Processing" else "Complete"
    progress := (processed : ℚ) / (total : ℚ) * 100
    message := "Processed " ++ toString processed ++ " out of " ++ toString total ++ " documents" }

/-- `max(1, min(settings.BATCH_SIZE, total_documents // settings.MAX_WORKERS))`
(line 50).  The configured values are parameters: configuration loading is an
external collaborator. -/
def optimalBatchSize (batchSize maxWorkers total : Nat) : Nat :=
  max 1 (min batchSize (total / maxWorkers))

/-- The sequence of status records written by the batch loop of
`OCREngine.process_documents` (lines 53-59): after the 1-based batch `index`,
`processed_count = min(index * optimal_batch_size, total_documents)`. -/
def processDocumentsStatuses (batchSize maxWorkers : Nat) (docs : List α) :
    List EngineStatus :=
  let obs := optimalBatchSize batchSize maxWorkers docs.length
  (List.range (chunksOf obs docs).length).map
    (fun idx => updateProcessingStatus docs.length (min ((idx + 1) * obs) docs.length))

def extJpg : List Char := ['.', 'j', 'p', 'g']
def extJpeg : List Char := ['.', 'j', 'p', 'e', 'g']
def extPng : List Char := ['.', 'p', 'n', 'g']
def extPdf : List Char := ['.', 'p', 'd', 'f']
def extTiff : List Char := ['.', 't', 'i', 'f', 'f']
def extGif : List Char := ['.', 'g', 'i', 'f']
def extBmp : List Char := ['.', 'b', 'm', 'p']
def extWebp : List Char := ['.', 'w', 'e', 'b', 'p']

def pdfMagic : List Nat := [37, 80, 68, 70]
def jpegMagic : List Nat := [255, 216, 255]
def pngMagic : List Nat := [137, 80, 78, 71, 13, 10, 26, 10]

/-- `OCREngine._get_mime_type` (lines 318-343): lower-cased extension first,
then content sniffing, then the PDF default.  `content` is the byte string. -/
def getMimeType (filename : List Char) (content : List Nat) : String :=
  let f := filename.map Char.toLower
  if listEndsWith f extJpg then "image/jpeg"
  else if listEndsWith f extJpeg then "image/jpeg"
  else if listEndsWith f extPng then "image/png"
  else if listEndsWith f extPdf then "application/pdf"
  else if listEndsWith f extTiff then "image/tiff"
  else if listEndsWith f extGif then "image/gif"
  else if listEndsWith f extBmp then "image/bmp"
  else if listEndsWith f extWebp then "image/webp"
  else if content.take 4 = pdfMagic then "application/pdf"
  else if content.take 3 = jpegMagic then "image/jpeg"
  else if content.take 8 = pngMagic then "image/png"
  else "application/pdf"

/-- Whether the filename carries one of the extensions `_get_mime_type` knows. -/
def knownExtension (f : List Char) : Bool :=
  listEndsWith f extJpg || listEndsWith f extJpeg ||
  listEndsWith f extPng || listEndsWith f extPdf ||
  listEndsWith f extTiff || listEndsWith f extGif ||
  listEndsWith f extBmp || listEndsWith f extWebp

/-- `tenacity.wait_exponential(multiplier=1, min=4, max=10)` after the failed
attempt number `n`: `max(min_, min(multiplier * 2**n, max_))`. -/
def waitExponential (attempt : Nat) : Nat := max 4 (min (2 ^ attempt) 10)

/-- `tenacity.retry(stop=stop_after_attempt(...))`: run `body` on attempt
numbers `k, k+1, …` with `fuel` further attempts allowed after the current one;
returns the final outcome, the number of the last attempt made, and the backoff
waits inserted between attempts. -/
def retryGo (body : Nat → Except ε α) : Nat → Nat → List Nat → Except ε α × Nat × List Nat
  | 0, k, ws => (body k, k, ws.reverse)
  | fuel + 1, k, ws =>
    match body k with
    | .ok a => (.ok a, k, ws.reverse)
    | .error _ => retryGo body fuel (k + 1) (waitExponential k :: ws)

/-- Run a `@retry(stop=stop_after_attempt(maxAttempts), wait=wait_exponential(...))`
body. -/
def retryRun (maxAttempts : Nat) (body : Nat → Except ε α) : Except ε α × Nat × List Nat :=
  retryGo body (maxAttempts - 1) 1 []

/-- `OCREngine._process_document` (lines 68-130) under its decorator
`@retry(stop=stop_after_attempt(3), wait=wait_exponential(multiplier=1, min=4, max=10))`:
the body ends in `raise`, so every per-attempt failure reaches tenacity. -/
def processDocumentRun (pipeline : Nat → Except String α) : Except String α × Nat × List Nat :=
  retryRun 3 pipeline

/-- The body of `OCREngine._get_docai_results` (lines 256-316): the whole body is
wrapped in `try: … except Exception: return None`, so the decorated function
always returns normally — a Document AI client failure becomes `ok none`. -/
def getDocaiBody (client : Nat → Except String DocaiResult) (k : Nat) :
    Except String (Option DocaiResult) :=
  match client k with
  | .ok r => .ok (some r)
  | .error _ => .ok none

/-- `_get_docai_results` under the same `@retry(stop=stop_after_attempt(3), …)`
decorator. -/
def getDocaiRun (client : Nat → Except String DocaiResult) :
    Except String (Option DocaiResult) × Nat × List Nat :=
  retryRun 3 (getDocaiBody client)

/-! ### `app/main.py` — task status writes and cancellation -/

/-- Task states written into `processing_tasks`. -/
inductive TaskState where
  | Queued
  | Processing
  | Completed
  | Failed
  | Cancelled
deriving DecidableEq, Repr

/-- One `ProcessingStatus` write (progress is the `int(...)` value). -/
structure TaskStatus where
  status : TaskState
  progress : Nat
deriving DecidableEq, Repr

/-- The sequence of `processing_tasks[task_id]` writes performed by
`process_file_directly` (main.py lines 89-156) on the success path with `n`
processed file batches: 0, 20, then `int(20 + i / n * 40)` for `i = 0 … n-1`,
then 60, 80 and the terminal `("Completed", 100)`. -/
def fileWrites (n : Nat) : List TaskStatus :=
  [⟨.Processing, 0⟩, ⟨.Processing, 20⟩] ++
    (List.range n).map (fun i => ⟨.Processing, 20 + 40 * i / n⟩) ++
    [⟨.Processing, 60⟩, ⟨.Processing, 80⟩, ⟨.Completed, 100⟩]

/-- The full observable write sequence: `upload_files` writes `Queued 0` and
`Processing 0` (lines 253, 284) before the background task runs. -/
def uploadAndProcessWrites (n : Nat) : List TaskStatus :=
  ⟨.Queued, 0⟩ :: ⟨.Processing, 0⟩ :: fileWrites n

/-- The status written by `cancel_task` (line 354): progress is reset to 0. -/
def cancelWrite : TaskStatus := ⟨.Cancelled, 0⟩

/-- `cancel_task`'s guard (line 353): only `Queued` and `Processing` may cancel. -/
def cancellable : TaskState → Bool
  | .Queued => true
  | .Processing => true
  | _ => false

/-- Progress values of a write sequence. -/
def progSequence (l : List TaskStatus) : List Nat := l.map TaskStatus.progress

/-- Non-decreasing check on a number sequence. -/
def monoNat : List Nat → Bool
  | [] => true
  | [_] => true
  | a :: b :: t => decide (a ≤ b) && monoNat (b :: t)

/-! ### Concrete data used by the claim theorems -/

/-- A `price_parser` collaborator that finds no amount. -/
def fbNone : List Char → Option PyDecimal := fun _ => none

/-- A `dateparser` collaborator (with `DATE_ORDER`) that parses nothing. -/
def dpoNone : DateOrder → List Char → Option PyDate := fun _ _ => none

/-- A `dateparser` collaborator (without `DATE_ORDER`) that parses nothing. -/
def dpNone : List Char → Option PyDate := fun _ => none

/-- The spec's example-scenario text. -/
def exampleInvoiceText : List Char :=
  "Invoice Number: INV-2024-001 ... Subtotal: $100.00 Tax: $8.00 Total: $108.00".toList

/-- The spec's example table: a header row and one data row. -/
def exampleTables : List (List (List (List Char))) :=
  [[["Description".toList, "Qty".toList, "Price".toList, "Total".toList],
    ["Widget".toList, "2".toList, "50.00".toList, "100.00".toList]]]

/-- An OCR result whose text has no date-shaped content. -/
def noDateOcr : OcrResult := ⟨"scan1.pdf", "hello world".toList, [], [], 1⟩

/-- A structured-entity result with a nonempty supplier name but no invoice id,
date, amounts or tables. -/
def docaiNoNumber : DocaiResult :=
  ⟨[("supplier_name", "ACME Corp"), ("supplier_address", "1 Infinite Loop"),
    ("supplier_city", "Cupertino"), ("supplier_state", "CA"),
    ("supplier_country", "USA"), ("supplier_zip", "95014")], []⟩

def sampleAddress : Address := ⟨"1 Road", "Town", some "TS", "US", "12345"⟩
def sampleVendor : Vendor := ⟨"ACME", sampleAddress⟩
def sampleItem : InvoiceItem := ⟨"Widget", 2, decOfInt 50, decOfInt 100⟩

/-! ### C1 -/

/-- C1: on the spec's example scenario the heuristic tier extracts
`grand_total = 100.00` and `taxes = 8.00` as claimed, but `final_total` is
`100.00`, not `108.00`: the `total` regex first matches the substring `total`
inside `Subtotal`.  The one table item does satisfy
`total = quantity * unit_price`. -/
theorem c1_example_totals_divergence :
    extractTotals fbNone exampleInvoiceText =
      (some ⟨false, 10000, -2⟩, some ⟨false, 800, -2⟩, some ⟨false, 10000, -2⟩)
    ∧ (extractTotals fbNone exampleInvoiceText).1.map pyDecVal = some 100
    ∧ (extractTotals fbNone exampleInvoiceText).2.1.map pyDecVal = some 8
    ∧ (extractTotals fbNone exampleInvoiceText).2.2.map pyDecVal = some 100
    ∧ (extractTotals fbNone exampleInvoiceText).2.2.map pyDecVal ≠ some 108
    ∧ extractItems fbNone exampleTables = [⟨"Widget", 2, ⟨5000, 2⟩, ⟨10000, 2⟩⟩]
    ∧ (extractItems fbNone exampleTables).all
        (fun it => decEqv it.total (decMul (decOfInt it.quantity) it.unit_price)) = true := by
  have h : extractTotals fbNone exampleInvoiceText =
      (some ⟨false, 10000, -2⟩, some ⟨false, 800, -2⟩, some ⟨false, 10000, -2⟩) := by decide
  refine ⟨h, ?_, ?_, ?_, ?_, by decide, by decide⟩ <;>
    rw [h] <;> simp [pyDecVal, pyDecFix, decVal] <;> norm_num

/-! ### C2 -/

/-- C2 counterexample: an item violating the arithmetic invariant by far more
than the 0.01 tolerance (`|90 - 2*50| = 10`) is rejected by the `InvoiceItem`
constructor — `validate_item_total` raises — rather than accepted with a
warning attached. -/
theorem c2_violation_rejected_cex :
    decLt decCent (decAbs (decSub (decOfInt 90) (decMul (decOfInt 2) (decOfInt 50)))) = true
    ∧ mkInvoiceItem "Widget" (some 2) (some (decOfInt 50)) (some (decOfInt 90)) =
        .error "InvoiceItem:item_total"
    ∧ (∀ item, mkInvoiceItem "Widget" (some 2) (some (decOfInt 50)) (some (decOfInt 90)) ≠ .ok item) := by
  refine ⟨by decide, by decide, ?_⟩
  intro item h
  rw [(by decide : mkInvoiceItem "Widget" (some 2) (some (decOfInt 50)) (some (decOfInt 90)) =
    .error "InvoiceItem:item_total")] at h
  exact Except.noConfusion h

/-- C2 amended: on the strict models a violated invariant *rejects* — the
constructor returns an error (pydantic raises) instead of attaching a warning:
(a) an item total off by more than 0.01 from `quantity * unit_price`,
(b) a final total off by more than 0.01 from `grand_total + taxes`,
(c) an invoice date after today. -/
theorem c2_invariant_violation_rejects :
    (∀ (desc : String) (q : Int) (u t : DecFix),
        0 < q → 0 ≤ decVal u → 0 ≤ decVal t →
        (1 / 100 : ℚ) < |decVal t - (q : ℚ) * decVal u| →
        ∃ e, mkInvoiceItem desc (some q) (some u) (some t) = .error e)
    ∧ (∀ (fn num : String) (v : Vendor) (d : PyDate) (g tx f : DecFix)
        (items : List InvoiceItem) (p : Int) (today : PyDate),
        0 ≤ decVal g → 0 ≤ decVal tx → 0 ≤ decVal f →
        (1 / 100 : ℚ) < |decVal f - (decVal g + decVal tx)| →
        ∃ e, mkInvoice fn (some num) v (some d) (some g) (some tx) (some f) items p today = .error e)
    ∧ (∀ (fn num : String) (v : Vendor) (d : PyDate) (g tx f : DecFix)
        (items : List InvoiceItem) (p : Int) (today : PyDate),
        dateLe d today = false →
        ∃ e, mkInvoice fn (some num) v (some d) (some g) (some tx) (some f) items p today = .error e) := by
  refine ⟨?_, ?_, ?_⟩
  · intro desc q u t hq hu ht hmis
    have hgate : 0 < q ∧ decLe (decOfInt 0) u = true ∧ decLe (decOfInt 0) t = true ∧
        decLt decCent (decAbs (decSub t (decMul (decOfInt q) u))) = true := by
      refine ⟨hq, ?_, ?_, ?_⟩
      · rw [decLe_iff, decVal_decOfInt]; exact_mod_cast hu
      · rw [decLe_iff, decVal_decOfInt]; exact_mod_cast ht
      · rw [decLt_iff, decVal_decCent, decVal_decAbs, decVal_decSub, decVal_decMul, decVal_decOfInt]
        exact hmis
    have herr : itemErrs desc q u t ≠ [] := by
      apply List.ne_nil_of_mem (a := "item_total")
      simp [itemErrs, hgate]
    exact ⟨_, by simp only [mkInvoiceItem]; rw [if_neg herr]⟩
  · intro fn num v d g tx f items p today hg htx hf hmis
    have hgate : decLe (decOfInt 0) g = true ∧ decLe (decOfInt 0) tx = true ∧
        decLe (decOfInt 0) f = true ∧
        decLt decCent (decAbs (decSub f (decAdd g tx))) = true := by
      refine ⟨?_, ?_, ?_, ?_⟩
      · rw [decLe_iff, decVal_decOfInt]; exact_mod_cast hg
      · rw [decLe_iff, decVal_decOfInt]; exact_mod_cast htx
      · rw [decLe_iff, decVal_decOfInt]; exact_mod_cast hf
      · rw [decLt_iff, decVal_decCent, decVal_decAbs, decVal_decSub, decVal_decAdd]
        exact hmis
    have herr : invoiceErrs fn num d g tx f items p today ≠ [] := by
      apply List.ne_nil_of_mem (a := "final_total_mismatch")
      simp [invoiceErrs, hgate]
    exact ⟨_, by simp only [mkInvoice]; rw [if_neg herr]⟩
  · intro fn num v d g tx f items p today hdate
    have herr : invoiceErrs fn num d g tx f items p today ≠ [] := by
      apply List.ne_nil_of_mem (a := "invoice_date")
      simp [invoiceErrs, hdate]
    exact ⟨_, by simp only [mkInvoice]; rw [if_neg herr]⟩

/-- C2 witness: concrete violating inputs for the three parts. -/
theorem c2_invariant_violation_rejects_witness :
    (∃ e, mkInvoiceItem "Gadget" (some 3) (some (decOfInt 10)) (some (decOfInt 50)) = .error e)
    ∧ (∃ e, mkInvoice "a.pdf" (some "INV-90001") sampleVendor (some ⟨2024, 1, 2⟩)
        (some (decOfInt 10)) (some (decOfInt 5)) (some (decOfInt 100)) [sampleItem] 1 ⟨2026, 1, 1⟩ = .error e)
    ∧ (∃ e, mkInvoice "a.pdf" (some "INV-90001") sampleVendor (some ⟨2027, 1, 2⟩)
        (some (decOfInt 10)) (some (decOfInt 5)) (some (decOfInt 15)) [sampleItem] 1 ⟨2026, 1, 1⟩ = .error e) :=
  ⟨c2_invariant_violation_rejects.1 "Gadget" 3 (decOfInt 10) (decOfInt 50)
      (by decide) (by simp [decVal_decOfInt]) (by simp [decVal_decOfInt])
      (by simp [decVal_decOfInt]; norm_num),
   c2_invariant_violation_rejects.2.1 "a.pdf" "INV-90001" sampleVendor ⟨2024, 1, 2⟩
      (decOfInt 10) (decOfInt 5) (decOfInt 100) [sampleItem] 1 ⟨2026, 1, 1⟩
      (by simp [decVal_decOfInt]) (by simp [decVal_decOfInt]) (by simp [decVal_decOfInt])
      (by simp [decVal_decOfInt]; norm_num),
   c2_invariant_violation_rejects.2.2 "a.pdf" "INV-90001" sampleVendor ⟨2027, 1, 2⟩
      (decOfInt 10) (decOfInt 5) (decOfInt 15) [sampleItem] 1 ⟨2026, 1, 1⟩ (by decide)⟩

/-! ### C3 -/

theorem firstSomeList_eq_none {α β : Type} (l : List β) (f : β → Option α)
    (h : ∀ x ∈ l, f x = none) : firstSomeList (l.map f) = none := by
  induction l with
  | nil => rfl
  | cons a t ih =>
    simp only [List.map_cons, firstSomeList]
    rw [h a (List.mem_cons_self a t)]
    exact ih (fun x hx => h x (List.mem_cons_of_mem a hx))

theorem tryDateOrders_none (dpo : DateOrder → List Char → Option PyDate)
    (h : ∀ o s, dpo o s = none) (s : List Char) : tryDateOrders dpo s = none := by
  simp [tryDateOrders, h]

theorem datePatternScan_none (parse : List Char → Option PyDate)
    (h : ∀ s, parse s = none) (pats : List (List (List Tok))) (text : List Char) :
    datePatternScan parse pats text = none := by
  unfold datePatternScan
  apply firstSomeList_eq_none
  intro segs _
  apply firstSomeList_eq_none
  intro groups _
  exact h _

theorem dateWordScan_none (dp : List Char → Option PyDate) (hdp : ∀ s, dp s = none)
    (ws : List (List Char)) (h8 : ∀ w ∈ ws, numeric8 (stripPunct w) = none) :
    dateWordScan dp ws = none := by
  induction ws with
  | nil => rfl
  | cons w rest ih =>
    have h1 : numeric8 (stripPunct w) = none := h8 w (List.mem_cons_self w rest)
    have hrest := ih (fun x hx => h8 x (List.mem_cons_of_mem w hx))
    simp only [dateWordScan, hdp, h1, ite_self]
    cases rest with
    | nil => simp [hdp, h1, hrest]
    | cons nw rest2 =>
      cases rest2 with
      | nil => simpa [hdp, h1] using hrest
      | cons yw rest3 => simpa [hdp, h1] using hrest

/-- C3 amended: (a) when the `dateparser` collaborator parses none of the
candidates of any stage and no word passes the bare `YYYYMMDD` check,
`_extract_date` returns `none` — it never defaults the date; (b) but the strict
`Invoice` model requires a date, so an invoice constructed with the absent date
is rejected (`Invoice:missing_required`) rather than carried to a validator. -/
theorem c3_no_date_strict_reject :
    (∀ (dpo : DateOrder → List Char → Option PyDate) (dp : List Char → Option PyDate)
        (text : List Char),
        (∀ o s, dpo o s = none) → (∀ s, dp s = none) →
        (∀ w ∈ pySplitWs text, numeric8 (stripPunct w) = none) →
        extractDate dpo dp text = none)
    ∧ (∀ (fn : String) (num : Option String) (v : Vendor) (gt tax ft : Option DecFix)
        (items : List InvoiceItem) (p : Int) (today : PyDate),
        mkInvoice fn num v none gt tax ft items p today = .error "Invoice:missing_required") := by
  constructor
  · intro dpo dp text hdpo hdp h8
    unfold extractDate
    rw [datePatternScan_none _ (tryDateOrders_none dpo hdpo) labeledDatePats text,
      datePatternScan_none _ (tryDateOrders_none dpo hdpo) plainDatePats text,
      dateWordScan_none dp hdp _ h8]
  · intro fn num v gt tax ft items p today
    cases num <;> cases gt <;> cases tax <;> cases ft <;> rfl

/-- C3 witness: a concrete no-date text and a concrete dateless construction. -/
theorem c3_no_date_strict_reject_witness :
    extractDate dpoNone dpNone "lorem ipsum dolor".toList = none
    ∧ mkInvoice "f.pdf" (some "INV-70007") sampleVendor none (some (decOfInt 1))
        (some (decOfInt 1)) (some (decOfInt 2)) [sampleItem] 1 ⟨2026, 1, 1⟩ =
        .error "Invoice:missing_required" :=
  ⟨c3_no_date_strict_reject.1 dpoNone dpNone "lorem ipsum dolor".toList
     (fun _ _ => rfl) (fun _ => rfl) (by decide),
   c3_no_date_strict_reject.2 "f.pdf" (some "INV-70007") sampleVendor (some (decOfInt 1))
     (some (decOfInt 1)) (some (decOfInt 2)) [sampleItem] 1 ⟨2026, 1, 1⟩⟩

/-- C3 counterexample: for a text with no parsable date the extractor leaves the
date absent (it is not defaulted), but no `Invoice` results at all — the
heuristic tier's construction fails — so there is no invoice carrying an absent
date onward, contrary to the claim. -/
theorem c3_absent_date_cex :
    extractDate dpoNone dpNone "hello world".toList = none
    ∧ extractFromGcv dpoNone dpNone fbNone noDateOcr "scan1.pdf" ⟨2026, 1, 1⟩ =
        .error "Address:street,city,country,postal_code"
    ∧ (∀ inv, extractFromGcv dpoNone dpNone fbNone noDateOcr "scan1.pdf" ⟨2026, 1, 1⟩ ≠ .ok inv) := by
  refine ⟨by decide, by decide, ?_⟩
  intro inv h
  rw [(by decide : extractFromGcv dpoNone dpNone fbNone noDateOcr "scan1.pdf" ⟨2026, 1, 1⟩ =
    .error "Address:street,city,country,postal_code")] at h
  exact Except.noConfusion h

/-! ### C4 -/

/-- C4 amended: when a structured-entity result (with entities) is present,
`extract_invoice_data` returns exactly the outcome of `_extract_from_docai`: a
constructible candidate is always accepted — the `_is_invoice_valid` check is
vacuously true on the strict model — and a construction failure propagates as a
raised validation error; the heuristic tier is never consulted. -/
theorem c4_docai_tier_behavior :
    (∀ (dpo : DateOrder → List Char → Option PyDate) (dp : List Char → Option PyDate)
        (fb : List Char → Option PyDecimal) (ocr : OcrResult) (d : DocaiResult) (today : PyDate),
        extractInvoiceData dpo dp fb ocr (some d) today = extractFromDocai fb d ocr.filename today)
    ∧ (∀ inv : Invoice, isInvoiceValid inv = true) := by
  have hvalid : ∀ inv : Invoice, isInvoiceValid inv = true := by
    intro inv
    simp [isInvoiceValid]
  refine ⟨?_, hvalid⟩
  intro dpo dp fb ocr d today
  cases h : extractFromDocai fb d ocr.filename today with
  | ok inv => simp only [extractInvoiceData, h, hvalid inv, if_true]
  | error e => simp only [extractInvoiceData, h]

/-- C4 counterexample: a candidate with a nonempty supplier name passes the
claim's validity check, yet `extract_invoice_data` neither returns it nor falls
back to the heuristic tier — the strict `Invoice` construction inside
`_extract_from_docai` raises and the error propagates. -/
theorem c4_fallthrough_cex :
    docaiCandidateValid fbNone docaiNoNumber = true
    ∧ extractInvoiceData dpoNone dpNone fbNone noDateOcr (some docaiNoNumber) ⟨2026, 1, 1⟩ =
        .error "Invoice:missing_required"
    ∧ (∀ inv, extractInvoiceData dpoNone dpNone fbNone noDateOcr (some docaiNoNumber) ⟨2026, 1, 1⟩ ≠
        .ok inv) := by
  refine ⟨by decide, by decide, ?_⟩
  intro inv h
  rw [(by decide : extractInvoiceData dpoNone dpNone fbNone noDateOcr (some docaiNoNumber) ⟨2026, 1, 1⟩ =
    .error "Invoice:missing_required")] at h
  exact Except.noConfusion h

/-! ### C5 -/

/-- C5: with a collaborator that fails on every attempt, the `@retry`-decorated
`_process_document` makes exactly 3 attempts, spaced by the clamped backoff
waits `[4, 4]`, before the failure surfaces; but `_get_docai_results` makes
exactly 1 attempt and returns `none` — its body catches every exception, so its
`@retry` decorator never retries. -/
theorem c5_retry_attempt_counts {α : Type} (e : String) (pipeline : Nat → Except String α)
    (client : Nat → Except String DocaiResult)
    (hp : ∀ k, pipeline k = .error e) (hc : ∀ k, client k = .error e) :
    processDocumentRun pipeline = (.error e, 3, [4, 4])
    ∧ getDocaiRun client = (.ok none, 1, []) := by
  constructor
  · show retryRun 3 pipeline = _
    rw [retryRun, show (3 - 1 : Nat) = 1 + 1 from rfl]
    rw [retryGo, hp 1, retryGo, hp 2, retryGo, hp 3]
    rfl
  · show retryRun 3 (getDocaiBody client) = _
    rw [retryRun, show (3 - 1 : Nat) = 1 + 1 from rfl]
    rw [retryGo, getDocaiBody, hc 1]
    rfl

/-- C5 witness: concrete always-failing collaborators. -/
theorem c5_retry_attempt_counts_witness :
    processDocumentRun (fun _ => (.error "unavailable" : Except String Unit)) =
      (.error "unavailable", 3, [4, 4])
    ∧ getDocaiRun (fun _ => .error "unavailable") = (.ok none, 1, []) :=
  c5_retry_attempt_counts "unavailable" (fun _ => .error "unavailable")
    (fun _ => .error "unavailable") (fun _ => rfl) (fun _ => rfl)

/-! ### C6 -/

theorem monoNat_iff (l : List Nat) : monoNat l = true ↔ l.Chain' (· ≤ ·) := by
  induction l with
  | nil => simp [monoNat]
  | cons a t ih =>
    cases t with
    | nil => simp [monoNat]
    | cons b t2 =>
      rw [monoNat, List.chain'_cons, Bool.and_eq_true, decide_eq_true_eq, ih]

/-- C6 counterexample: after the write of progress 20, cancellation is legal
(state `Processing`), and the cancel write resets progress to 0, so the
observed progress sequence `0, 0, 0, 20, 0` is not non-decreasing. -/
theorem c6_cancel_progress_cex :
    cancellable (((uploadAndProcessWrites 1).getD 3 cancelWrite).status) = true
    ∧ progSequence ((uploadAndProcessWrites 1).take 4 ++ [cancelWrite]) = [0, 0, 0, 20, 0]
    ∧ monoNat (progSequence ((uploadAndProcessWrites 1).take 4 ++ [cancelWrite])) = false := by
  exact ⟨by decide, by decide, by decide⟩

/-- C6 amended: along the normal direct-processing path the progress writes are
non-decreasing and the sequence ends with the terminal `(Completed, 100)`;
monotonicity fails only through cancellation, which resets progress to 0. -/
theorem c6_progress_monotone_success_path (n : Nat) (h : 1 ≤ n) :
    monoNat (progSequence (uploadAndProcessWrites n)) = true
    ∧ (uploadAndProcessWrites n).getLast? = some ⟨.Completed, 100⟩ := by
  obtain ⟨m, rfl⟩ : ∃ m, n = m + 1 := ⟨n - 1, by omega⟩
  constructor
  · rw [monoNat_iff]
    have hseq : progSequence (uploadAndProcessWrites (m + 1)) =
        0 :: 0 :: 0 :: 20 :: ((List.range (m + 1)).map (fun i => 20 + 40 * i / (m + 1)) ++ [60, 80, 100]) := by
      simp [progSequence, uploadAndProcessWrites, fileWrites, Function.comp]
    rw [hseq]
    have hmid : List.Chain' (· ≤ ·) ((List.range (m + 1)).map (fun i => 20 + 40 * i / (m + 1))) := by
      rw [List.chain'_map, List.chain'_range_succ]
      intro i _
      show 20 + 40 * i / (m + 1) ≤ 20 + 40 * (i + 1) / (m + 1)
      have : 40 * i / (m + 1) ≤ 40 * (i + 1) / (m + 1) :=
        Nat.div_le_div_right (Nat.mul_le_mul_left 40 (Nat.le_succ i))
      omega
    have hlast : ((List.range (m + 1)).map (fun i => 20 + 40 * i / (m + 1))).getLast? =
        some (20 + 40 * m / (m + 1)) := by
      rw [List.range_succ, List.map_append, List.map_cons, List.map_nil, List.getLast?_concat]
    have hne : (List.range (m + 1)).map (fun i => 20 + 40 * i / (m + 1)) ≠ [] := by
      simp
    have hhead : ((List.range (m + 1)).map (fun i => 20 + 40 * i / (m + 1))).head? =
        some 20 := by
      rw [List.range_succ_eq_map]
      simp
    have hbound : 40 * m / (m + 1) ≤ 40 := by
      calc 40 * m / (m + 1) ≤ 40 * (m + 1) / (m + 1) :=
            Nat.div_le_div_right (Nat.mul_le_mul_left 40 (Nat.le_succ m))
        _ = 40 := Nat.mul_div_cancel 40 (Nat.succ_pos m)
    refine (List.chain'_cons'.2 ⟨by simp, ?_⟩)
    refine (List.chain'_cons'.2 ⟨by simp, ?_⟩)
    refine (List.chain'_cons'.2 ⟨by simp, ?_⟩)
    refine (List.chain'_cons'.2 ⟨?_, ?_⟩)
    · intro b hb
      rw [List.head?_append_of_ne_nil _ hne, hhead] at hb
      simp at hb
      omega
    rw [List.chain'_append]
    have htail : List.Chain' (· ≤ ·) [60, 80, 100] := by
      rw [List.chain'_cons, List.chain'_cons]
      exact ⟨by omega, by omega, List.chain'_singleton 100⟩
    refine ⟨hmid, htail, ?_⟩
    intro x hx y hy
    rw [hlast] at hx
    simp at hx hy
    omega
  · have hsplit : uploadAndProcessWrites (m + 1) =
        (⟨.Queued, 0⟩ :: ⟨.Processing, 0⟩ :: ([⟨.Processing, 0⟩, ⟨.Processing, 20⟩] ++
          (List.range (m + 1)).map (fun i => ⟨.Processing, 20 + 40 * i / (m + 1)⟩) ++
          [⟨.Processing, 60⟩, ⟨.Processing, 80⟩])) ++ [⟨.Completed, 100⟩] := by
      simp [uploadAndProcessWrites, fileWrites]
    rw [hsplit, List.getLast?_concat]

/-- C6 witness: the success-path sequence for two file batches. -/
theorem c6_progress_monotone_success_path_witness :
    monoNat (progSequence (uploadAndProcessWrites 2)) = true
    ∧ (uploadAndProcessWrites 2).getLast? = some ⟨.Completed, 100⟩ :=
  c6_progress_monotone_success_path 2 (by decide)

/-! ### C7 -/

/-- C7: `_parse_decimal` first strips every character other than digits, `.` and
`-` and reads the remainder as an exact decimal; on failure it falls back to the
currency parser; and when both fail — or the input is empty/whitespace — the
result is `none`, never a zero default (a zero fallback amount is falsy and also
yields `none`). -/
theorem c7_parse_decimal_spec (fb : List Char → Option PyDecimal) (s : List Char) :
    (pyStripWs s = [] → parseDecimal fb s = none)
    ∧ (∀ d, pyStripWs s ≠ [] → parseDecLit (cleanAmount s) = some d →
        parseDecimal fb s = some d)
    ∧ (pyStripWs s ≠ [] → parseDecLit (cleanAmount s) = none → fb s = none →
        parseDecimal fb s = none)
    ∧ (∀ a, pyStripWs s ≠ [] → parseDecLit (cleanAmount s) = none → fb s = some a →
        parseDecimal fb s = if a.coeff = 0 then none else some a) := by
  refine ⟨?_, ?_, ?_, ?_⟩
  · intro h
    simp [parseDecimal, h]
  · intro d hne hlit
    simp [parseDecimal, hne, hlit]
  · intro hne hlit hfb
    simp [parseDecimal, hne, hlit, hfb]
  · intro a hne hlit hfb
    simp [parseDecimal, hne, hlit, hfb]

/-- C7 witness: a currency string, an unparseable string and a whitespace
string. -/
theorem c7_parse_decimal_spec_witness :
    parseDecimal fbNone "$1,234.50".toList = some ⟨false, 123450, -2⟩
    ∧ parseDecimal fbNone "abc".toList = none
    ∧ parseDecimal fbNone "   ".toList = none :=
  ⟨(c7_parse_decimal_spec fbNone "$1,234.50".toList).2.1 ⟨false, 123450, -2⟩
      (by decide) (by decide),
   (c7_parse_decimal_spec fbNone "abc".toList).2.2.1 (by decide) (by decide) rfl,
   (c7_parse_decimal_spec fbNone "   ".toList).1 (by decide)⟩

/-! ### C9 -/

theorem chunksOfGo_flatten {α : Type} (bs : Nat) (hbs : bs ≠ 0) :
    ∀ (fuel : Nat) (l : List α), l.length ≤ fuel → (chunksOfGo bs fuel l).flatten = l := by
  intro fuel
  induction fuel with
  | zero =>
    intro l hl
    rw [List.length_eq_zero.1 (Nat.le_zero.1 hl)]
    rfl
  | succ f ih =>
    intro l hl
    cases l with
    | nil => rfl
    | cons c t =>
      simp only [chunksOfGo, List.flatten_cons]
      rw [ih ((c :: t).drop bs) ?_, List.take_append_drop]
      have : ((c :: t).drop bs).length = (c :: t).length - bs := List.length_drop bs (c :: t)
      simp only [List.length_cons] at hl this
      omega

theorem chunksOfGo_batches {α : Type} (bs : Nat) (hbs : bs ≠ 0) :
    ∀ (fuel : Nat) (l : List α), ∀ b ∈ chunksOfGo bs fuel l, b ≠ [] ∧ b.length ≤ bs := by
  intro fuel
  induction fuel with
  | zero =>
    intro l b hb
    simp only [chunksOfGo] at hb
    exact absurd hb (List.not_mem_nil b)
  | succ f ih =>
    intro l b hb
    cases l with
    | nil =>
      simp only [chunksOfGo] at hb
      exact absurd hb (List.not_mem_nil b)
    | cons c t =>
      simp only [chunksOfGo] at hb
      rcases List.mem_cons.1 hb with h | h
      · subst h
        constructor
        · simp [List.take_eq_nil_iff, hbs]
        · simp [List.length_take_le]
      · exact ih _ b h

/-- C9: `process_documents` partitions the document list into consecutive
batches of size `max(1, min(batchSize, total // maxWorkers))` covering every
document exactly once (their concatenation is the input, every batch is
nonempty and at most the batch size), and after the 1-based batch `i` the
reported status is built from `processed = min(i * batchSize, total)` whose
progress is `processed / total * 100`. -/
theorem c9_batching_progress (docs : List String) (batchSize maxWorkers : Nat)
    (_hd : docs ≠ []) (_hw : 0 < maxWorkers) :
    (chunksOf (optimalBatchSize batchSize maxWorkers docs.length) docs).flatten = docs
    ∧ (∀ b ∈ chunksOf (optimalBatchSize batchSize maxWorkers docs.length) docs,
        b ≠ [] ∧ b.length ≤ optimalBatchSize batchSize maxWorkers docs.length)
    ∧ (∀ i, i < (chunksOf (optimalBatchSize batchSize maxWorkers docs.length) docs).length →
        (processDocumentsStatuses batchSize maxWorkers docs)[i]? =
          some (updateProcessingStatus docs.length
            (min ((i + 1) * optimalBatchSize batchSize maxWorkers docs.length) docs.length)))
    ∧ (∀ total processed : Nat, (updateProcessingStatus total processed).progress =
        (processed : ℚ) / (total : ℚ) * 100) := by
  have hobs : optimalBatchSize batchSize maxWorkers docs.length ≠ 0 := by
    have := Nat.le_max_left 1 (min batchSize (docs.length / maxWorkers))
    unfold optimalBatchSize
    omega
  refine ⟨chunksOfGo_flatten _ hobs _ docs le_rfl, chunksOfGo_batches _ hobs _ docs, ?_, ?_⟩
  · intro i hi
    simp only [processDocumentsStatuses, List.getElem?_map, List.getElem?_range hi]
    rfl
  · intro total processed
    rfl

/-- C9 witness: three documents, batch size 2, one worker. -/
theorem c9_batching_progress_witness :
    (chunksOf (optimalBatchSize 2 1 (["a", "b", "c"] : List String).length) ["a", "b", "c"]).flatten =
      ["a", "b", "c"] :=
  (c9_batching_progress ["a", "b", "c"] 2 1 (by decide) (by decide)).1

/-! ### C10 -/

/-- If `a` is a suffix of `f` and neither of `a`, `b` is a suffix of the other,
then `b` is not a suffix of `f`. -/
theorem ends_excl (f a b : List Char) (ha : listEndsWith f a = true)
    (hab : (listEndsWith a b || listEndsWith b a) = false) : listEndsWith f b = false := by
  cases hb : listEndsWith f b with
  | false => rfl
  | true =>
    exfalso
    have ha' : a <:+ f := List.isSuffixOf_iff_suffix.1 ha
    have hb' : b <:+ f := List.isSuffixOf_iff_suffix.1 hb
    rcases List.suffix_or_suffix_of_suffix ha' hb' with h | h
    · have : listEndsWith b a = true := List.isSuffixOf_iff_suffix.2 h
      rw [Bool.or_eq_false_iff] at hab
      exact absurd this (by simp [hab.2])
    · have : listEndsWith a b = true := List.isSuffixOf_iff_suffix.2 h
      rw [Bool.or_eq_false_iff] at hab
      exact absurd this (by simp [hab.1])

/-- C10: `_get_mime_type` returns the PDF default exactly when no known
extension and no magic-byte prefix applies, and a known extension always takes
precedence over content sniffing. -/
theorem c10_mime_type_spec (filename : List Char) (content : List Nat) :
    (knownExtension (filename.map Char.toLower) = false →
      content.take 4 ≠ pdfMagic → content.take 3 ≠ jpegMagic → content.take 8 ≠ pngMagic →
      getMimeType filename content = "application/pdf")
    ∧ (listEndsWith (filename.map Char.toLower) extJpg = true →
        getMimeType filename content = "image/jpeg")
    ∧ (listEndsWith (filename.map Char.toLower) extJpeg = true →
        getMimeType filename content = "image/jpeg")
    ∧ (listEndsWith (filename.map Char.toLower) extPng = true →
        getMimeType filename content = "image/png")
    ∧ (listEndsWith (filename.map Char.toLower) extPdf = true →
        getMimeType filename content = "application/pdf")
    ∧ (listEndsWith (filename.map Char.toLower) extTiff = true →
        getMimeType filename content = "image/tiff")
    ∧ (listEndsWith (filename.map Char.toLower) extGif = true →
        getMimeType filename content = "image/gif")
    ∧ (listEndsWith (filename.map Char.toLower) extBmp = true →
        getMimeType filename content = "image/bmp")
    ∧ (listEndsWith (filename.map Char.toLower) extWebp = true →
        getMimeType filename content = "image/webp") := by
  refine ⟨?_, ?_, ?_, ?_, ?_, ?_, ?_, ?_, ?_⟩
  · intro h h4 h3 h8
    rw [knownExtension] at h
    simp only [Bool.or_eq_false_iff] at h
    obtain ⟨⟨⟨⟨⟨⟨⟨e1, e2⟩, e3⟩, e4⟩, e5⟩, e6⟩, e7⟩, e8⟩ := h
    simp [getMimeType, e1, e2, e3, e4, e5, e6, e7, e8, h4, h3, h8]
  · intro h
    simp [getMimeType, h]
  · intro h
    simp [getMimeType, h, ends_excl _ _ extJpg h (by decide)]
  · intro h
    simp [getMimeType, h, ends_excl _ _ extJpg h (by decide),
      ends_excl _ _ extJpeg h (by decide)]
  · intro h
    simp [getMimeType, h, ends_excl _ _ extJpg h (by decide),
      ends_excl _ _ extJpeg h (by decide), ends_excl _ _ extPng h (by decide)]
  · intro h
    simp [getMimeType, h, ends_excl _ _ extJpg h (by decide),
      ends_excl _ _ extJpeg h (by decide), ends_excl _ _ extPng h (by decide),
      ends_excl _ _ extPdf h (by decide)]
  · intro h
    simp [getMimeType, h, ends_excl _ _ extJpg h (by decide),
      ends_excl _ _ extJpeg h (by decide), ends_excl _ _ extPng h (by decide),
      ends_excl _ _ extPdf h (by decide), ends_excl _ _ extTiff h (by decide)]
  · intro h
    simp [getMimeType, h, ends_excl _ _ extJpg h (by decide),
      ends_excl _ _ extJpeg h (by decide), ends_excl _ _ extPng h (by decide),
      ends_excl _ _ extPdf h (by decide), ends_excl _ _ extTiff h (by decide),
      ends_excl _ _ extGif h (by decide)]
  · intro h
    simp [getMimeType, h, ends_excl _ _ extJpg h (by decide),
      ends_excl _ _ extJpeg h (by decide), ends_excl _ _ extPng h (by decide),
      ends_excl _ _ extPdf h (by decide), ends_excl _ _ extTiff h (by decide),
      ends_excl _ _ extGif h (by decide), ends_excl _ _ extBmp h (by decide)]

/-- C10 witness: an unknown extension with unknown content defaults to PDF, and
an upper-case `.PNG` extension beats PDF magic bytes in the content. -/
theorem c10_mime_type_spec_witness :
    getMimeType "invoice.dat".toList [0, 1, 2] = "application/pdf"
    ∧ getMimeType "PHOTO.PNG".toList [37, 80, 68, 70] = "image/png" :=
  ⟨(c10_mime_type_spec "invoice.dat".toList [0, 1, 2]).1 (by decide) (by decide)
      (by decide) (by decide),
   (c10_mime_type_spec "PHOTO.PNG".toList [37, 80, 68, 70]).2.2.2.1 (by decide)⟩

/-! ### C8 -/

theorem natOfDigits_from (l : List Char) (a : Nat) :
    l.foldl (fun a c => 10 * a + (c.toNat - 48)) a = a * 10 ^ l.length + natOfDigits l := by
  induction l generalizing a with
  | nil => simp [natOfDigits]
  | cons c t ih =>
    simp only [List.foldl_cons, List.length_cons, natOfDigits]
    rw [ih (10 * a + (c.toNat - 48)), ih (10 * 0 + (c.toNat - 48))]
    ring

theorem natOfDigits_append (l1 l2 : List Char) :
    natOfDigits (l1 ++ l2) = natOfDigits l1 * 10 ^ l2.length + natOfDigits l2 := by
  unfold natOfDigits
  rw [List.foldl_append]
  exact natOfDigits_from l2 _

theorem natOfDigits_replicate0 (k : Nat) (l : List Char) :
    natOfDigits (List.replicate k '0' ++ l) = natOfDigits l := by
  induction k with
  | zero => simp
  | succ m ih =>
    rw [List.replicate_succ, List.cons_append]
    show natOfDigits ('0' :: (List.replicate m '0' ++ l)) = natOfDigits l
    unfold natOfDigits
    simp only [List.foldl_cons]
    exact ih

theorem digitChar_spec : ∀ k, k < 10 → (digitChar k).isDigit = true ∧ (digitChar k).toNat - 48 = k := by
  decide

theorem natOfDigits_single (c : Char) : natOfDigits [c] = c.toNat - 48 := by
  simp [natOfDigits]

theorem digitsGo_spec : ∀ fuel n, n ≤ fuel →
    natOfDigits (digitsGo fuel n) = n ∧ ∀ c ∈ digitsGo fuel n, c.isDigit = true := by
  intro fuel
  induction fuel with
  | zero =>
    intro n hn
    obtain rfl : n = 0 := Nat.le_zero.1 hn
    exact ⟨rfl, by simp [digitsGo]⟩
  | succ f ih =>
    intro n hn
    by_cases h0 : n = 0
    · subst h0
      refine ⟨?_, ?_⟩ <;> simp [digitsGo, natOfDigits]
    · have hdiv : n / 10 ≤ f := by
        have h1 : n / 10 < n := Nat.div_lt_self (Nat.pos_of_ne_zero h0) (by omega)
        omega
      obtain ⟨ihv, ihd⟩ := ih (n / 10) hdiv
      have hgo : digitsGo (f + 1) n = digitsGo f (n / 10) ++ [digitChar (n % 10)] := by
        rw [digitsGo, if_neg h0]
      have hmod := digitChar_spec (n % 10) (Nat.mod_lt n (by omega))
      constructor
      · rw [hgo, natOfDigits_append, ihv, natOfDigits_single, hmod.2]
        have := Nat.div_add_mod n 10
        simp only [List.length_cons, List.length_nil, pow_one]
        omega
      · intro c hc
        rw [hgo] at hc
        rcases List.mem_append.1 hc with h | h
        · exact ihd c h
        · rw [List.mem_singleton.1 h]
          exact hmod.1

theorem natOfDigits_digitsOfNat (n : Nat) : natOfDigits (digitsOfNat n) = n := by
  unfold digitsOfNat
  by_cases h : n = 0
  · subst h
    decide
  · rw [if_neg h]
    exact (digitsGo_spec (n + 1) n (Nat.le_succ n)).1

theorem digitsOfNat_all_isDigit (n : Nat) : ∀ c ∈ digitsOfNat n, c.isDigit = true := by
  unfold digitsOfNat
  by_cases h : n = 0
  · subst h
    decide
  · rw [if_neg h]
    exact (digitsGo_spec (n + 1) n (Nat.le_succ n)).2

theorem digitsOfNat_ne_nil (n : Nat) : digitsOfNat n ≠ [] := by
  unfold digitsOfNat
  by_cases h : n = 0
  · subst h
    decide
  · rw [if_neg h, digitsGo, if_neg h]
    simp

theorem dropWhile_all_false {p : Char → Bool} (l : List Char) (h : ∀ c ∈ l, p c = false) :
    l.dropWhile p = l := by
  cases l with
  | nil => rfl
  | cons c t => simp [List.dropWhile_cons, h c (List.mem_cons_self c t)]

theorem pyStripWs_eq_self (l : List Char) (h : ∀ c ∈ l, isPySpace c = false) :
    pyStripWs l = l := by
  unfold pyStripWs pyStripP
  rw [dropWhile_all_false l h,
    dropWhile_all_false l.reverse (fun c hc => h c (List.mem_reverse.1 hc)),
    List.reverse_reverse]

theorem not_space_of_isDigit (c : Char) (h : c.isDigit = true) : isPySpace c = false := by
  by_contra hs
  rw [Bool.not_eq_false] at hs
  simp only [isPySpace, Bool.or_eq_true, decide_eq_true_eq] at hs
  rcases hs with ((((rfl | rfl) | rfl) | rfl) | rfl) | rfl <;> exact absurd h (by decide)

theorem takeWhile_all {p : Char → Bool} (l : List Char) (h : ∀ c ∈ l, p c = true) :
    l.takeWhile p = l ∧ l.dropWhile p = [] := by
  induction l with
  | nil => exact ⟨rfl, rfl⟩
  | cons c t ih =>
    have hc := h c (List.mem_cons_self c t)
    have := ih (fun x hx => h x (List.mem_cons_of_mem c hx))
    simp [List.takeWhile_cons, List.dropWhile_cons, hc, this.1, this.2]

theorem takeWhile_append_stop {p : Char → Bool} (t : List Char) (c : Char) (u : List Char)
    (ht : ∀ x ∈ t, p x = true) (hc : p c = false) :
    (t ++ c :: u).takeWhile p = t ∧ (t ++ c :: u).dropWhile p = c :: u := by
  induction t with
  | nil => simp [List.takeWhile_cons, List.dropWhile_cons, hc]
  | cons a t2 ih =>
    have ha := ht a (List.mem_cons_self a t2)
    have := ih (fun x hx => ht x (List.mem_cons_of_mem a hx))
    simp [List.takeWhile_cons, List.dropWhile_cons, ha, this.1, this.2]

theorem parseDecCore_digits (sg : Bool) (l : List Char) (hne : l ≠ [])
    (hd : ∀ c ∈ l, c.isDigit = true) :
    parseDecCore sg l = some ⟨sg, natOfDigits l, 0⟩ := by
  obtain ⟨ht, hdr⟩ := takeWhile_all l hd
  unfold parseDecCore
  rw [ht, hdr]
  simp [List.isEmpty_iff, hne]

theorem parseDecCore_point (sg : Bool) (t u : List Char)
    (ht : ∀ c ∈ t, c.isDigit = true) (hu : ∀ c ∈ u, c.isDigit = true) (htne : t ≠ []) :
    parseDecCore sg (t ++ '.' :: u) = some ⟨sg, natOfDigits (t ++ u), -(u.length : Int)⟩ := by
  obtain ⟨htk, hdr⟩ := takeWhile_append_stop t '.' u ht (by decide)
  unfold parseDecCore
  rw [htk, hdr]
  simp only [List.isEmpty_iff, List.all_eq_true]
  simp
  exact ⟨hu, fun ht2 => absurd ht2 htne⟩

theorem parseDecLit_head_digit (c : Char) (t : List Char) (hc : c.isDigit = true) :
    parseDecLit (c :: t) = parseDecCore false (c :: t) := by
  have hne : ¬(c = '-') := by
    intro h
    subst h
    exact absurd hc (by decide)
  simp [parseDecLit, hne]

/-- Under the hypotheses `exp ≤ 0` and `-6 < exp + (number of coefficient
digits)`, CPython's `str` of a `Decimal` uses no exponent notation and parsing
it back recovers exactly the same decimal. -/
theorem parseDecLit_pyDecStr (d : PyDecimal) (hexp : d.exp ≤ 0)
    (hld : (-6 : Int) < pyDecLeft d) :
    parseDecLit (pyDecStr d) = some d
    ∧ cleanAmount (pyDecStr d) = pyDecStr d
    ∧ pyStripWs (pyDecStr d) = pyDecStr d
    ∧ pyDecStr d ≠ [] := by
  have hdd := digitsOfNat_all_isDigit d.coeff
  have hdne := digitsOfNat_ne_nil d.coeff
  have hbody : parseDecCore d.sign (pyDecBody d) = some d
      ∧ (∃ c t, pyDecBody d = c :: t ∧ c.isDigit = true)
      ∧ (∀ c ∈ pyDecBody d, c.isDigit = true ∨ c = '.') := by
    by_cases h0 : d.exp = 0
    · rw [pyDecBody, if_pos ⟨hexp, hld⟩, if_pos h0]
      refine ⟨?_, ?_, fun c hc => Or.inl (hdd c hc)⟩
      · rw [parseDecCore_digits d.sign _ hdne hdd, natOfDigits_digitsOfNat, ← h0]
      · obtain ⟨c, t, hct⟩ := List.exists_cons_of_ne_nil hdne
        exact ⟨c, t, hct, hdd c (by rw [hct]; exact List.mem_cons_self c t)⟩
    · by_cases hpos : 0 < pyDecLeft d
      · rw [pyDecBody, if_pos ⟨hexp, hld⟩, if_neg h0, if_pos hpos]
        have hkz : ((pyDecLeft d).toNat : Int) = pyDecLeft d :=
          Int.toNat_of_nonneg (by omega)
        have hlen : (pyDecLeft d).toNat < (digitsOfNat d.coeff).length := by
          have : pyDecLeft d < ((digitsOfNat d.coeff).length : Int) := by
            rw [pyDecLeft]
            omega
          omega
        have hk1 : 1 ≤ (pyDecLeft d).toNat := by omega
        have htne : (digitsOfNat d.coeff).take (pyDecLeft d).toNat ≠ [] := by
          intro hnil
          have hlt := List.length_take (pyDecLeft d).toNat (digitsOfNat d.coeff)
          rw [hnil] at hlt
          simp only [List.length_nil] at hlt
          omega
        refine ⟨?_, ?_, ?_⟩
        · rw [parseDecCore_point d.sign _ _
            (fun c hc => hdd c (List.take_subset _ _ hc))
            (fun c hc => hdd c (List.drop_subset _ _ hc)) htne]
          rw [List.take_append_drop, natOfDigits_digitsOfNat]
          congr 1
          have hdl := List.length_drop (pyDecLeft d).toNat (digitsOfNat d.coeff)
          have hcast : (((digitsOfNat d.coeff).length - (pyDecLeft d).toNat : Nat) : Int) =
              ((digitsOfNat d.coeff).length : Int) - ((pyDecLeft d).toNat : Int) := by
            omega
          rw [hdl, hcast, hkz, pyDecLeft]
          ring
        · obtain ⟨c, t, hct⟩ := List.exists_cons_of_ne_nil htne
          exact ⟨c, t ++ '.' :: (digitsOfNat d.coeff).drop (pyDecLeft d).toNat,
            by rw [hct]; rfl,
            hdd c (List.take_subset _ _ (by rw [hct]; exact List.mem_cons_self c t))⟩
        · intro c hc
          rcases List.mem_append.1 hc with h | h
          · exact Or.inl (hdd c (List.take_subset _ _ h))
          · rcases List.mem_cons.1 h with h | h
            · exact Or.inr h
            · exact Or.inl (hdd c (List.drop_subset _ _ h))
      · rw [pyDecBody, if_pos ⟨hexp, hld⟩, if_neg h0, if_neg hpos]
        have hzz : ((-(pyDecLeft d)).toNat : Int) = -(pyDecLeft d) :=
          Int.toNat_of_nonneg (by omega)
        refine ⟨?_, ⟨'0', _, rfl, by decide⟩, ?_⟩
        · have hshape : '0' :: '.' :: (List.replicate (-(pyDecLeft d)).toNat '0' ++ digitsOfNat d.coeff) =
              ['0'] ++ '.' :: (List.replicate (-(pyDecLeft d)).toNat '0' ++ digitsOfNat d.coeff) := rfl
          rw [hshape, parseDecCore_point d.sign ['0'] _ (by decide)
            (fun c hc => by
              rcases List.mem_append.1 hc with h | h
              · rw [List.eq_of_mem_replicate h]; decide
              · exact hdd c h)
            (by simp)]
          rw [show (['0'] : List Char) ++ (List.replicate (-(pyDecLeft d)).toNat '0' ++ digitsOfNat d.coeff) =
              List.replicate ((-(pyDecLeft d)).toNat + 1) '0' ++ digitsOfNat d.coeff from by
            rw [List.replicate_succ]
            rfl]
          rw [natOfDigits_replicate0, natOfDigits_digitsOfNat]
          congr 1
          rw [List.length_append, List.length_replicate]
          have hcast : (((-(pyDecLeft d)).toNat + (digitsOfNat d.coeff).length : Nat) : Int) =
              ((-(pyDecLeft d)).toNat : Int) + ((digitsOfNat d.coeff).length : Int) := by
            push_cast
            ring
          rw [hcast, hzz, pyDecLeft]
          ring
        · intro c hc
          rcases List.mem_cons.1 hc with h | h
          · exact Or.inl (by rw [h]; decide)
          rcases List.mem_cons.1 h with h | h
          · exact Or.inr h
          rcases List.mem_append.1 h with h | h
          · exact Or.inl (by rw [List.eq_of_mem_replicate h]; decide)
          · exact Or.inl (hdd c h)
  obtain ⟨hcore, ⟨c0, t0, hct, hc0⟩, hmem⟩ := hbody
  have hmemFull : ∀ c ∈ pyDecStr d, c.isDigit = true ∨ c = '.' ∨ c = '-' := by
    intro c hc
    rw [pyDecStr] at hc
    rcases List.mem_append.1 hc with h | h
    · cases hsg : d.sign with
      | false => rw [hsg] at h; cases h
      | true =>
        rw [hsg] at h
        rw [List.mem_singleton.1 h]
        exact Or.inr (Or.inr rfl)
    · rcases hmem c h with h2 | h2
      · exact Or.inl h2
      · exact Or.inr (Or.inl h2)
  refine ⟨?_, ?_, ?_, ?_⟩
  · rw [pyDecStr]
    cases hsg : d.sign with
    | false =>
      rw [if_neg (by simp)]
      rw [List.nil_append, hct, parseDecLit_head_digit c0 t0 hc0, ← hct]
      rw [← hsg]
      exact hcore
    | true =>
      rw [if_pos rfl, List.singleton_append]
      show parseDecLit ('-' :: pyDecBody d) = _
      rw [parseDecLit, if_pos rfl]
      rw [show true = d.sign from hsg.symm]
      exact hcore
  · rw [cleanAmount, List.filter_eq_self]
    intro a ha
    rcases hmemFull a ha with h | h | h
    · simp [h]
    · simp [h]
    · simp [h]
  · apply pyStripWs_eq_self
    intro c hc
    rcases hmemFull c hc with h | h | h
    · exact not_space_of_isDigit c h
    · rw [h]; decide
    · rw [h]; decide
  · rw [pyDecStr, hct]
    cases d.sign <;> simp


/-- C8 counterexample: `_parse_decimal("0.0000001")` yields `Decimal("1E-7")`,
whose string form is scientific; re-parsing strips the `E`, `Decimal("1-7")`
fails, and with a fallback currency parser that finds no amount (permitted by
the spec, which lets the fallback return null) the result is `none`, not the
original value — idempotence fails. -/
theorem c8_idempotence_cex :
    parseDecimal fbNone "0.0000001".toList = some ⟨false, 1, -7⟩
    ∧ pyDecStr ⟨false, 1, -7⟩ = "1E-7".toList
    ∧ parseDecimal fbNone (pyDecStr ⟨false, 1, -7⟩) = none := by
  exact ⟨by decide, by decide, by decide⟩

/-- C8 amended: parsing is idempotent for every parsed decimal whose string form
avoids scientific notation (exponent ≤ 0 and adjusted exponent above -7, i.e.
CPython prints it without an `E`): re-parsing the string form returns exactly
the same decimal. -/
theorem c8_idempotent_plain (fb : List Char → Option PyDecimal) (s : List Char) (d : PyDecimal)
    (_h : parseDecimal fb s = some d) (hexp : d.exp ≤ 0) (hld : (-6 : Int) < pyDecLeft d) :
    parseDecimal fb (pyDecStr d) = some d := by
  obtain ⟨hlit, hclean, hstrip, hne⟩ := parseDecLit_pyDecStr d hexp hld
  unfold parseDecimal
  rw [hclean, hlit, if_neg (by rw [hstrip]; exact hne)]

/-- C8 witness: `100.00` re-parses to itself. -/
theorem c8_idempotent_plain_witness :
    parseDecimal fbNone (pyDecStr ⟨false, 10000, -2⟩) = some ⟨false, 10000, -2⟩ :=
  c8_idempotent_plain fbNone "100.00".toList ⟨false, 10000, -2⟩ (by decide) (by decide) (by decide)

end OCRSpec
